import Mathlib

/-!
flipper-thermo: the AM2301 reader of `thermo.c`

A shallow embedding of `thermo.c` (a Flipper Zero application that bit-bangs an
AM2301 humidity/temperature sensor on one GPIO line) and theorems about it.

Conventions of the embedding.

* The line is an oracle `line : Nat → Bool`: `line k` is the level returned by the
  `k`-th call of `furi_hal_gpio_read` (`true` = high). The number of calls made so far
  is carried in the state (`reads`).
* C machine integers are natural numbers with the wrap-around written out
  (`% 256` for `uint8_t`, `% 65536` for `uint16_t`).
* Every C loop is a structurally recursive function on a fuel argument which returns
  `none` when the fuel runs out; the theorems show that fuel `65536` always suffices.
* `context->temp_celsius` and `context->humidity` are `float` in C. The only values the
  program stores in them are `(float)` conversions of integers of absolute value below
  `2^24`, which are exact, so the fields hold the integer that is converted.
* Calls into the firmware with no result (`furi_hal_gpio_write`, `furi_hal_gpio_init`,
  delays, logging, the flag wait) are recorded, in program order, in a trace.
* What the firmware supplies and the repository does not contain is a parameter
  (`FuriFlagErrorTimeout`) or a definition marked as modelled (`READ_BIT`, `CLEAR_BIT`,
  `malloc`).
-/

namespace Thermo

/-! ## Data model -/

/-- The two GPIO modes `thermo.c` passes to `furi_hal_gpio_init`. -/
inductive GpioMode where
  | GpioModeOutputOpenDrain
  | GpioModeAnalog
  deriving DecidableEq, Repr

/-- The two pull settings `thermo.c` passes to `furi_hal_gpio_init`. -/
inductive GpioPull where
  | GpioPullUp
  | GpioPullNo
  deriving DecidableEq, Repr

/-- The two speed settings `thermo.c` passes to `furi_hal_gpio_init`. -/
inductive GpioSpeed where
  | GpioSpeedVeryHigh
  | GpioSpeedLow
  deriving DecidableEq, Repr

/-- Configuration and output latch of `THERMO_GPIO_PIN`. -/
structure GpioPin where
  level : Bool
  mode : GpioMode
  pull : GpioPull
  speed : GpioSpeed
  deriving DecidableEq, Repr

/-- Firmware calls of the reader thread, in the order they are made. -/
inductive Event where
  | gpio_write (level : Bool)
  | gpio_init (mode : GpioMode) (pull : GpioPull) (speed : GpioSpeed)
  | thread_flags_wait (timeout_ms : Nat) (flags : Nat)
  | delay_ms (ms : Nat)
  | delay_us (us : Nat)
  | log_checksum_failure
  | log_reading (temp_celsius humidity : Int)
  deriving DecidableEq, Repr

/-- The `AM2301ScratchPad` union: five bytes, addressed by field name or by index. -/
structure AM2301ScratchPad where
  hum_msb : Nat
  hum_lsb : Nat
  temp_msb : Nat
  temp_lsb : Nat
  crc : Nat
  deriving DecidableEq, Repr

/-- Read of `buf.bytes[a]`: the array member of the union aliases the five fields. -/
def AM2301ScratchPad.bytes (buf : AM2301ScratchPad) (a : Nat) : Nat :=
  match a with
  | 0 => buf.hum_msb
  | 1 => buf.hum_lsb
  | 2 => buf.temp_msb
  | 3 => buf.temp_lsb
  | 4 => buf.crc
  | _ => 0

/-- Write of `buf.bytes[a]`. -/
def AM2301ScratchPad.set_byte (buf : AM2301ScratchPad) (a v : Nat) : AM2301ScratchPad :=
  match a with
  | 0 => { buf with hum_msb := v }
  | 1 => { buf with hum_lsb := v }
  | 2 => { buf with temp_msb := v }
  | 3 => { buf with temp_lsb := v }
  | 4 => { buf with crc := v }
  | _ => buf

/-- The initialiser `AM2301ScratchPad buf = {0}`. -/
def scratchpad_zero : AM2301ScratchPad :=
  { hum_msb := 0, hum_lsb := 0, temp_msb := 0, temp_lsb := 0, crc := 0 }

/-- The `ThermoContext` structure. The four pointers are kept as abstract handles; the
two `float` fields hold the integer whose conversion the program stores. -/
structure ThermoContext where
  gui : Nat
  view_port : Nat
  event_queue : Nat
  reader_thread : Nat
  temp_celsius : Int
  humidity : Int
  has_device : Bool
  deriving DecidableEq, Repr

/-- What the reader thread can change: the shared context, the pin, the number of line
samples taken so far and the trace of firmware calls. -/
structure ReaderState where
  context : ThermoContext
  pin : GpioPin
  reads : Nat
  trace : List Event
  deriving DecidableEq, Repr

/-- The constant `UPDATE_PERIOD_MS`, the timeout of the flag wait in milliseconds. -/
def UPDATE_PERIOD_MS : Nat := 1000

/-! ## The polling loops of `thermo_reader_thread_callback` -/

/-- One handshake poll (lines 160-179):
`do { if(--retries == 0) break; } while(furi_hal_gpio_read(pin) == level);`
with `level = false` for the polls written `while(!read)` and `true` for the others.
Returns the final `retries` and the number of samples taken so far. -/
def handshake_poll (level : Bool) (line : Nat → Bool) : Nat → Nat → Nat → Option (Nat × Nat)
  | 0, _, _ => none
  | fuel + 1, reads, retries =>
    let retries1 := (retries + 65535) % 65536
    if retries1 = 0 then some (retries1, reads)
    else if line reads = level then handshake_poll level line fuel (reads + 1) retries1
    else some (retries1, reads + 1)

/-- One pulse measurement (lines 189 and 191):
`while(furi_hal_gpio_read(pin) == level && T != 65535) T++;`
The line is sampled before the counter is compared, at every evaluation of the
condition. Returns the final counter and the number of samples taken so far. -/
def read_signal (level : Bool) (line : Nat → Bool) : Nat → Nat → Nat → Option (Nat × Nat)
  | 0, _, _ => none
  | fuel + 1, reads, T =>
    if line reads = level ∧ T ≠ 65535 then
      read_signal level line fuel (reads + 1) ((T + 1) % 65536)
    else some (T, reads + 1)

/-- The inner loop `for(uint8_t b = 7; b != 255; b--)` (lines 186-196) for byte `a`.
`F` is the fuel handed to each of the two measurements. Besides the scratchpad and the
sample count it returns the measured `(lT, hT)` pairs in the order they were measured;
the pairs do not influence the computation. -/
def bit_loop (F : Nat) (line : Nat → Bool) (a : Nat) :
    Nat → Nat → Nat → AM2301ScratchPad → Option (AM2301ScratchPad × Nat × List (Nat × Nat))
  | 0, _, _, _ => none
  | fuel + 1, reads, b, buf =>
    if b ≠ 255 then
      match read_signal false line F reads 0 with
      | none => none
      | some (lT, reads1) =>
        match read_signal true line F reads1 0 with
        | none => none
        | some (hT, reads2) =>
          let buf1 :=
            if hT > lT then buf.set_byte a ((buf.bytes a ||| (1 <<< b)) % 256) else buf
          match bit_loop F line a fuel reads2 ((b + 255) % 256) buf1 with
          | none => none
          | some (buf2, reads3, pulses) => some (buf2, reads3, (lT, hT) :: pulses)
    else some (buf, reads, [])

/-- The outer loop `for(uint8_t a = 0; a < sizeof(buf.bytes); a++)` (lines 185-197);
`sizeof(buf.bytes)` is 5. `F` is the fuel handed to each inner loop. -/
def byte_loop (F : Nat) (line : Nat → Bool) :
    Nat → Nat → Nat → AM2301ScratchPad → Option (AM2301ScratchPad × Nat × List (Nat × Nat))
  | 0, _, _, _ => none
  | fuel + 1, reads, a, buf =>
    if a < 5 then
      match bit_loop F line a F reads 7 buf with
      | none => none
      | some (buf1, reads1, pulses1) =>
        match byte_loop F line fuel reads1 ((a + 1) % 256) buf1 with
        | none => none
        | some (buf2, reads2, pulses2) => some (buf2, reads2, pulses1 ++ pulses2)
    else some (buf, reads, [])

/-- Lines 183-197: the scratchpad is zeroed and the 40 bits are read; `F` is the fuel of
every loop. -/
def read_frame (F : Nat) (line : Nat → Bool) (reads : Nat) :
    Option (AM2301ScratchPad × Nat × List (Nat × Nat)) :=
  byte_loop F line F reads 0 scratchpad_zero

/-- The measurements of lines 189 and 191 alone, `n` times in a row from sample `reads`:
a low measurement, then a high measurement that starts at the sample where the low one
stopped, each next pair starting where the previous one stopped. Returns the pairs
`(lT, hT)` and the number of samples taken so far. It serves to say what the pairs
reported by `read_frame` are. -/
def measure_pairs (F : Nat) (line : Nat → Bool) : Nat → Nat → Option (List (Nat × Nat) × Nat)
  | 0, reads => some ([], reads)
  | n + 1, reads =>
    match read_signal false line F reads 0 with
    | none => none
    | some (lT, reads1) =>
      match read_signal true line F reads1 0 with
      | none => none
      | some (hT, reads2) =>
        match measure_pairs F line n reads2 with
        | none => none
        | some (pulses, reads3) => some ((lT, hT) :: pulses, reads3)

/-- Lines 160-179: the four handshake polls, each starting from `retries = 500`. -/
def handshake (F : Nat) (line : Nat → Bool) (reads : Nat) : Option Nat :=
  match handshake_poll false line F reads 500 with
  | none => none
  | some (_, reads1) =>
    match handshake_poll true line F reads1 500 with
    | none => none
    | some (_, reads2) =>
      match handshake_poll false line F reads2 500 with
      | none => none
      | some (_, reads3) =>
        match handshake_poll true line F reads3 500 with
        | none => none
        | some (_, reads4) => some reads4

/-! ## Checksum and conversion -/

/-- Modelled from the spec: the macro `READ_BIT(REG, BIT)` comes from a firmware header that
is not part of the repository; the spec reads it as the test of the flag bit, i.e.
`(REG) & (BIT)`. -/
def READ_BIT (reg bit : Nat) : Nat := reg &&& bit

/-- Modelled from the spec: the macro `CLEAR_BIT(REG, BIT)` comes from a firmware header that
is not part of the repository; the spec reads it as clearing the flag bit, i.e.
`(REG) &= ~(BIT)` with the complement taken in 32-bit `int` and the result stored back
in the `uint16_t` register. -/
def CLEAR_BIT (reg bit : Nat) : Nat := (reg &&& (4294967295 - bit)) % 65536

/-- The condition of line 200: the `uint8_t` sum of the first four bytes differs from
`crc`. -/
def checksum_mismatch (buf : AM2301ScratchPad) : Bool :=
  decide ((buf.hum_msb + buf.hum_lsb + buf.temp_msb + buf.temp_lsb) % 256 ≠ buf.crc)

/-- Lines 207 and 209: the raw humidity is assembled as a `uint16_t` and the quotient by 10
is stored. `/` on C `int` truncates, which is `Int.tdiv`. -/
def store_humidity (context : ThermoContext) (buf : AM2301ScratchPad) : ThermoContext :=
  let hum := ((buf.hum_msb <<< 8) ||| buf.hum_lsb) % 65536
  { context with humidity := Int.tdiv (hum : Int) 10 }

/-- Lines 206 and 210-215: the raw temperature is assembled as a `uint16_t`; when bit 15 is
set it is cleared and the quotient by `-10` is stored, otherwise the quotient by `10`. -/
def store_temperature (context : ThermoContext) (buf : AM2301ScratchPad) : ThermoContext :=
  let temp := ((buf.temp_msb <<< 8) ||| buf.temp_lsb) % 65536
  if READ_BIT temp (1 <<< 15) ≠ 0 then
    let temp1 := CLEAR_BIT temp (1 <<< 15)
    { context with temp_celsius := Int.tdiv (temp1 : Int) (-10) }
  else
    { context with temp_celsius := Int.tdiv (temp : Int) 10 }

/-- Lines 206-215: humidity is stored first, then the temperature. -/
def store_reading (context : ThermoContext) (buf : AM2301ScratchPad) : ThermoContext :=
  store_temperature (store_humidity context buf) buf

/-- Lines 199-223: on a checksum mismatch the failure is logged and the loop `continue`s;
otherwise the reading is stored and logged and the thread sleeps 10000 us. The Boolean
tells whether the checksum check passed. -/
def finish_cycle (st : ReaderState) (buf : AM2301ScratchPad) : ReaderState × Bool :=
  if checksum_mismatch buf then
    ({ st with trace := st.trace ++ [Event.log_checksum_failure] }, false)
  else
    let context1 := store_reading st.context buf
    ({ st with
        context := context1
        trace := st.trace ++
          [Event.log_reading context1.temp_celsius context1.humidity, Event.delay_us 10000] },
      true)

/-- Lines 154-223: one poll cycle, run after the flag wait has timed out. -/
def poll_cycle (F : Nat) (line : Nat → Bool) (st : ReaderState) : Option (ReaderState × Bool) :=
  let st1 : ReaderState :=
    { st with
        pin := { st.pin with level := true }
        trace := st.trace ++
          [Event.gpio_write false, Event.delay_ms 19, Event.gpio_write true] }
  match handshake F line st1.reads with
  | none => none
  | some reads1 =>
    let st2 : ReaderState :=
      { st1 with context := { st1.context with has_device := true }, reads := reads1 }
    match read_frame F line st2.reads with
    | none => none
    | some (buf, reads2, _) => some (finish_cycle { st2 with reads := reads2 } buf)

/-! ## The acquisition loop -/

/-- The `for(;;)` loop of lines 145-224. `FuriFlagErrorTimeout` is a firmware constant
that is not part of the repository and is a parameter. `waits` lists the values returned
by the successive calls of `furi_thread_flags_wait`. The result is the state and whether
the loop was left through `break`; when `waits` is used up the thread is blocked in the
next wait and the loop has not been left. -/
def reader_loop (FuriFlagErrorTimeout F : Nat) (line : Nat → Bool) :
    List Nat → ReaderState → Option (ReaderState × Bool)
  | [], st => some (st, false)
  | flags :: waits, st =>
    let st1 : ReaderState :=
      { st with trace := st.trace ++ [Event.thread_flags_wait UPDATE_PERIOD_MS flags] }
    if flags ≠ FuriFlagErrorTimeout then some (st1, true)
    else
      match poll_cycle F line st1 with
      | none => none
      | some (st2, _) => reader_loop FuriFlagErrorTimeout F line waits st2

/-- Lines 142-143: the pin is written high and made an open-drain output with pull-up. -/
def reader_setup (st : ReaderState) : ReaderState :=
  { st with
      pin :=
        { level := true
          mode := GpioMode.GpioModeOutputOpenDrain
          pull := GpioPull.GpioPullUp
          speed := GpioSpeed.GpioSpeedVeryHigh }
      trace := st.trace ++
        [Event.gpio_write true,
         Event.gpio_init GpioMode.GpioModeOutputOpenDrain GpioPull.GpioPullUp
           GpioSpeed.GpioSpeedVeryHigh] }

/-- Lines 225-228: the cleanup before the thread exits. -/
def reader_cleanup (st : ReaderState) : ReaderState :=
  { st with
      context := { st.context with has_device := false }
      pin :=
        { level := false
          mode := GpioMode.GpioModeAnalog
          pull := GpioPull.GpioPullNo
          speed := GpioSpeed.GpioSpeedLow }
      trace := st.trace ++
        [Event.gpio_write false,
         Event.gpio_init GpioMode.GpioModeAnalog GpioPull.GpioPullNo GpioSpeed.GpioSpeedLow] }

/-- The function `thermo_reader_thread_callback` (lines 139-231): setup, the loop, and,
once the loop is left, the cleanup. The Boolean tells whether the thread has returned. -/
def thermo_reader_thread_callback (FuriFlagErrorTimeout F : Nat) (line : Nat → Bool)
    (waits : List Nat) (st : ReaderState) : Option (ReaderState × Bool) :=
  match reader_loop FuriFlagErrorTimeout F line waits (reader_setup st) with
  | none => none
  | some (st1, true) => some (reader_cleanup st1, true)
  | some (st1, false) => some (st1, false)

/-! ## Allocation and the draw callback -/

/-- Modelled from the spec: `malloc` belongs to the firmware and is not part of the
repository. The application is built against the Flipper firmware only, whose allocator
hands out zero-filled blocks; that is what makes the shared state start as the spec's data
model says, "created once at application start with `has_device = false`" and no reading.
The value is the block as `malloc(sizeof(ThermoContext))` returns it: null handles,
`0.0f` in both `float` fields, `false` in `has_device`. -/
def malloc : ThermoContext :=
  { gui := 0, view_port := 0, event_queue := 0, reader_thread := 0,
    temp_celsius := 0, humidity := 0, has_device := false }

/-- The function `thermo_context_alloc` (lines 233-255): the block comes from `malloc` and
the function assigns `view_port`, `event_queue`, `reader_thread` and `gui`, in this order,
and nothing else. The four arguments are the handles returned by the firmware. -/
def thermo_context_alloc (view_port event_queue reader_thread gui : Nat) : ThermoContext :=
  { malloc with
      view_port := view_port
      event_queue := event_queue
      reader_thread := reader_thread
      gui := gui }

/-- What `thermo_draw_callback` puts on the screen below the title: the "no data" text, or
the temperature and humidity it loaded from the context. The temperature is the Celsius
value loaded at line 99/103; turning it into the unit of the locale is the firmware's. -/
inductive Drawn where
  | no_data
  | reading (temp_celsius humidity : Int)
  deriving DecidableEq, Repr

/-- The function `thermo_draw_callback` (lines 59-131) run without interruption: it returns
at line 87 when `has_device` is false, before it loads any reading; otherwise it loads
`temp_celsius` (line 99/103) and `humidity` (line 125). -/
def thermo_draw_callback (context : ThermoContext) : Drawn :=
  if !context.has_device then Drawn.no_data
  else Drawn.reading context.temp_celsius context.humidity

/-! ## The shared reading under interleaving

The reader thread and the GUI thread (which runs `thermo_draw_callback`) share the
context without any lock. In a cycle whose checksum check passes the reader thread stores
`has_device` (line 181), then the humidity (line 209), then the temperature (line
212/214). The draw callback loads `has_device` (line 73) and returns if it is false;
otherwise it loads `temp_celsius` (line 99/103) and then `humidity` (line 125). Each
aligned load or store is one step, taken in program order; a schedule says which thread
moves next. -/

/-- The two threads that touch the shared reading. -/
inductive Thread where
  | reader
  | gui
  deriving DecidableEq, Repr

/-- State of one concurrent cycle/draw: the shared context, how many of the three stores
of the reader thread are done, how far the draw callback is (0: nothing loaded, 1:
`has_device` loaded and true, 2: temperature loaded, 3: returned), what it saw in
`has_device` and the two values it has loaded. -/
structure Interleaved where
  context : ThermoContext
  stores_done : Nat
  loads_done : Nat
  seen_device : Bool
  drawn_temp : Int
  drawn_humidity : Int
  deriving DecidableEq, Repr

/-- One step of the chosen thread; a thread that has finished does nothing. -/
def interleaved_step (buf : AM2301ScratchPad) (t : Thread) (s : Interleaved) : Interleaved :=
  match t with
  | Thread.reader =>
    match s.stores_done with
    | 0 => { s with context := { s.context with has_device := true }, stores_done := 1 }
    | 1 => { s with context := store_humidity s.context buf, stores_done := 2 }
    | 2 => { s with context := store_temperature s.context buf, stores_done := 3 }
    | _ => s
  | Thread.gui =>
    match s.loads_done with
    | 0 =>
      if !s.context.has_device then { s with seen_device := false, loads_done := 3 }
      else { s with seen_device := true, loads_done := 1 }
    | 1 => { s with drawn_temp := s.context.temp_celsius, loads_done := 2 }
    | 2 => { s with drawn_humidity := s.context.humidity, loads_done := 3 }
    | _ => s

/-- Runs a schedule from the state in which nothing has been stored or loaded yet. -/
def interleaved_run (buf : AM2301ScratchPad) (context : ThermoContext) (schedule : List Thread) :
    Interleaved :=
  schedule.foldl (fun s t => interleaved_step buf t s)
    { context := context, stores_done := 0, loads_done := 0, seen_device := false,
      drawn_temp := 0, drawn_humidity := 0 }

/-- What the draw callback has put on the screen, once it has returned. -/
def interleaved_drawn (s : Interleaved) : Option Drawn :=
  if s.loads_done = 3 then
    some (if s.seen_device then Drawn.reading s.drawn_temp s.drawn_humidity else Drawn.no_data)
  else none

/-- What holds of every state of a concurrent cycle/draw started from `context`: the
shared reading is the old one until the humidity is stored, then the old temperature
with the new humidity, then the new one; a loaded temperature is the old one, or the new
one once all stores are done; a draw that has returned saw no device, or holds the old
pair, the new pair, or the old temperature with the new humidity. -/
def snapshot_invariant (buf : AM2301ScratchPad) (context : ThermoContext) (s : Interleaved) :
    Prop :=
  ((s.stores_done ≤ 1 ∧ s.context.temp_celsius = context.temp_celsius ∧
      s.context.humidity = context.humidity) ∨
    (s.stores_done = 2 ∧ s.context.temp_celsius = context.temp_celsius ∧
      s.context.humidity = (store_reading context buf).humidity) ∨
    (s.stores_done = 3 ∧ s.context.temp_celsius = (store_reading context buf).temp_celsius ∧
      s.context.humidity = (store_reading context buf).humidity)) ∧
  (s.loads_done ≤ 1 ∨
    (s.loads_done = 2 ∧
      (s.drawn_temp = context.temp_celsius ∨
        (s.stores_done = 3 ∧ s.drawn_temp = (store_reading context buf).temp_celsius))) ∨
    (s.loads_done = 3 ∧
      (s.seen_device = false ∨
        (s.drawn_temp = context.temp_celsius ∧ s.drawn_humidity = context.humidity) ∨
        (s.drawn_temp = context.temp_celsius ∧
          s.drawn_humidity = (store_reading context buf).humidity) ∨
        (s.drawn_temp = (store_reading context buf).temp_celsius ∧
          s.drawn_humidity = (store_reading context buf).humidity))))

/-- What holds of every state after all three stores are done: the shared context is
fixed, `has_device` is true in it, and whatever the draw has loaded comes from it. -/
def settled_invariant (context : ThermoContext) (s : Interleaved) : Prop :=
  s.stores_done = 3 ∧ s.context = context ∧ context.has_device = true ∧
    (s.loads_done = 0 ∨
      (s.loads_done = 1 ∧ s.seen_device = true) ∨
      (s.loads_done = 2 ∧ s.seen_device = true ∧ s.drawn_temp = context.temp_celsius) ∨
      (s.loads_done = 3 ∧ s.seen_device = true ∧ s.drawn_temp = context.temp_celsius ∧
        s.drawn_humidity = context.humidity))

/-! ## Concrete data used in the closed statements -/

/-- A context holding an earlier reading (21 degrees, 40 percent), no device marked. -/
def example_context : ThermoContext :=
  { gui := 1, view_port := 2, event_queue := 3, reader_thread := 4,
    temp_celsius := 21, humidity := 40, has_device := false }

/-- A reader state before the thread has touched the pin. -/
def example_state : ReaderState :=
  { context := example_context
    pin :=
      { level := false
        mode := GpioMode.GpioModeAnalog
        pull := GpioPull.GpioPullNo
        speed := GpioSpeed.GpioSpeedLow }
    reads := 0
    trace := [] }

/-- A pulse train for the frame 01 F4 80 32 A7 (humidity raw 0x01F4, temperature raw
0x8032, checksum 0xA7): four samples that end the four handshake polls at once, then
three samples per bit, high-high-low for a 1 (`lT = 0 < hT = 1`) and low-high-low for a 0
(`lT = 1 > hT = 0`). -/
def example_samples : List Bool :=
  [true, false, true, false, false, true, false, false, true, false, false, true,
   false, false, true, false, false, true, false, false, true, false, false, true,
   false, true, true, false, true, true, false, true, true, false, true, true,
   false, true, true, false, false, true, false, true, true, false, false, true,
   false, false, true, false, true, true, false, false, true, false, false, true,
   false, false, true, false, false, true, false, false, true, false, false, true,
   false, false, true, false, false, true, false, false, true, false, true, true,
   false, true, true, false, false, true, false, false, true, false, true, true,
   false, false, true, false, true, true, false, false, true, false, true, true,
   false, false, true, false, false, true, false, true, true, false, true, true,
   false, true, true, false]

/-- The line that delivers `example_samples` and stays low afterwards. -/
def example_line (k : Nat) : Bool := example_samples.getD k false

/-- The 40 pairs `(lT, hT)` measured on `example_line`. -/
def example_pulses : List (Nat × Nat) :=
  [(1, 0), (1, 0), (1, 0), (1, 0), (1, 0), (1, 0), (1, 0), (0, 1),
   (0, 1), (0, 1), (0, 1), (0, 1), (1, 0), (0, 1), (1, 0), (1, 0),
   (0, 1), (1, 0), (1, 0), (1, 0), (1, 0), (1, 0), (1, 0), (1, 0),
   (1, 0), (1, 0), (0, 1), (0, 1), (1, 0), (1, 0), (0, 1), (1, 0),
   (0, 1), (1, 0), (0, 1), (1, 0), (1, 0), (0, 1), (0, 1), (0, 1)]

/-- The pulse train of `example_samples` with the last bit flipped: frame 01 F4 80 32 A6,
whose checksum byte is wrong. -/
def corrupt_samples : List Bool :=
  [true, false, true, false, false, true, false, false, true, false, false, true,
   false, false, true, false, false, true, false, false, true, false, false, true,
   false, true, true, false, true, true, false, true, true, false, true, true,
   false, true, true, false, false, true, false, true, true, false, false, true,
   false, false, true, false, true, true, false, false, true, false, false, true,
   false, false, true, false, false, true, false, false, true, false, false, true,
   false, false, true, false, false, true, false, false, true, false, true, true,
   false, true, true, false, false, true, false, false, true, false, true, true,
   false, false, true, false, true, true, false, false, true, false, true, true,
   false, false, true, false, false, true, false, true, true, false, true, true,
   false, false, true, false]

/-- The line that delivers `corrupt_samples` and stays low afterwards. -/
def corrupt_line (k : Nat) : Bool := corrupt_samples.getD k false

/-- The 40 pairs `(lT, hT)` measured on `corrupt_line`. -/
def corrupt_pulses : List (Nat × Nat) :=
  [(1, 0), (1, 0), (1, 0), (1, 0), (1, 0), (1, 0), (1, 0), (0, 1),
   (0, 1), (0, 1), (0, 1), (0, 1), (1, 0), (0, 1), (1, 0), (1, 0),
   (0, 1), (1, 0), (1, 0), (1, 0), (1, 0), (1, 0), (1, 0), (1, 0),
   (1, 0), (1, 0), (0, 1), (0, 1), (1, 0), (1, 0), (0, 1), (1, 0),
   (0, 1), (1, 0), (0, 1), (1, 0), (1, 0), (0, 1), (0, 1), (1, 0)]

/-- The pulse train of `example_samples` with every pulse three times as long: high
and three more highs, then low, for a 1 (`lT = 0 < hT = 3`); three lows, then high-low,
for a 0 (`lT = 3 > hT = 0`). -/
def scaled_samples : List Bool :=
  [true, false, true, false, false, false, false, true, false, false, false, false,
   true, false, false, false, false, true, false, false, false, false, true, false,
   false, false, false, true, false, false, false, false, true, false, false, false,
   false, true, false, true, true, true, true, false, true, true, true, true,
   false, true, true, true, true, false, true, true, true, true, false, true,
   true, true, true, false, false, false, false, true, false, true, true, true,
   true, false, false, false, false, true, false, false, false, false, true, false,
   true, true, true, true, false, false, false, false, true, false, false, false,
   false, true, false, false, false, false, true, false, false, false, false, true,
   false, false, false, false, true, false, false, false, false, true, false, false,
   false, false, true, false, false, false, false, true, false, false, false, false,
   true, false, true, true, true, true, false, true, true, true, true, false,
   false, false, false, true, false, false, false, false, true, false, true, true,
   true, true, false, false, false, false, true, false, true, true, true, true,
   false, false, false, false, true, false, true, true, true, true, false, false,
   false, false, true, false, false, false, false, true, false, true, true, true,
   true, false, true, true, true, true, false, true, true, true, true, false]

/-- The line that delivers `scaled_samples` and stays low afterwards. -/
def scaled_line (k : Nat) : Bool := scaled_samples.getD k false

/-- The 40 pairs `(lT, hT)` measured on `scaled_line`: those of `example_pulses` times 3. -/
def scaled_pulses : List (Nat × Nat) :=
  [(3, 0), (3, 0), (3, 0), (3, 0), (3, 0), (3, 0), (3, 0), (0, 3),
   (0, 3), (0, 3), (0, 3), (0, 3), (3, 0), (0, 3), (3, 0), (3, 0),
   (0, 3), (3, 0), (3, 0), (3, 0), (3, 0), (3, 0), (3, 0), (3, 0),
   (3, 0), (3, 0), (0, 3), (0, 3), (3, 0), (3, 0), (0, 3), (3, 0),
   (0, 3), (3, 0), (0, 3), (3, 0), (3, 0), (0, 3), (0, 3), (0, 3)]

/-- The context after an earlier successful cycle: the device is marked present and the
reading is 21 degrees and 40 percent. -/
def shown_context : ThermoContext :=
  { example_context with has_device := true }

/-! ## Termination and bounds of the polling loops -/

theorem read_signal_total (level : Bool) (line : Nat → Bool) :
    ∀ (n fuel reads T : Nat), T + n = 65535 → n < fuel →
      ∃ T1 k, read_signal level line fuel reads T = some (T1, reads + k) ∧
        T ≤ T1 ∧ T1 ≤ 65535 ∧ k = T1 - T + 1 := by
  intro n
  induction n with
  | zero =>
    intro fuel reads T hT hf
    obtain ⟨f, rfl⟩ : ∃ f, fuel = f + 1 := ⟨fuel - 1, by omega⟩
    refine ⟨T, 1, ?_, le_refl _, by omega, by omega⟩
    have h : T = 65535 := by omega
    simp [read_signal, h]
  | succ n ih =>
    intro fuel reads T hT hf
    obtain ⟨f, rfl⟩ : ∃ f, fuel = f + 1 := ⟨fuel - 1, by omega⟩
    by_cases hc : line reads = level ∧ T ≠ 65535
    · obtain ⟨T1, k, hk, h1, h2, h3⟩ := ih f (reads + 1) (T + 1) (by omega) (by omega)
      refine ⟨T1, k + 1, ?_, by omega, h2, by omega⟩
      have hm : (T + 1) % 65536 = T + 1 := Nat.mod_eq_of_lt (by omega)
      rw [read_signal, if_pos hc, hm, hk]
      simp [Nat.add_assoc, Nat.add_comm 1 k]
    · refine ⟨T, 1, ?_, le_refl _, by omega, by omega⟩
      rw [read_signal, if_neg hc]

theorem read_signal_held (level : Bool) (line : Nat → Bool) (hl : ∀ k, line k = level) :
    ∀ (n fuel reads T : Nat), T + n = 65535 → n < fuel →
      read_signal level line fuel reads T = some (65535, reads + (n + 1)) := by
  intro n
  induction n with
  | zero =>
    intro fuel reads T hT hf
    obtain ⟨f, rfl⟩ : ∃ f, fuel = f + 1 := ⟨fuel - 1, by omega⟩
    have h : T = 65535 := by omega
    simp [read_signal, h]
  | succ n ih =>
    intro fuel reads T hT hf
    obtain ⟨f, rfl⟩ : ∃ f, fuel = f + 1 := ⟨fuel - 1, by omega⟩
    have hc : line reads = level ∧ T ≠ 65535 := ⟨hl reads, by omega⟩
    have hm : (T + 1) % 65536 = T + 1 := Nat.mod_eq_of_lt (by omega)
    rw [read_signal, if_pos hc, hm, ih f (reads + 1) (T + 1) (by omega) (by omega)]
    simp [Nat.add_assoc, Nat.add_comm 1 (n + 1)]

theorem read_signal_other (level : Bool) (line : Nat → Bool) (fuel reads T : Nat)
    (hl : line reads ≠ level) (hf : 0 < fuel) :
    read_signal level line fuel reads T = some (T, reads + 1) := by
  obtain ⟨f, rfl⟩ : ∃ f, fuel = f + 1 := ⟨fuel - 1, by omega⟩
  rw [read_signal, if_neg (fun h => hl h.1)]

theorem handshake_poll_total (level : Bool) (line : Nat → Bool) :
    ∀ (n fuel reads retries : Nat), retries = n + 1 → retries ≤ 65535 → n < fuel →
      ∃ r k, handshake_poll level line fuel reads retries = some (r, reads + k) ∧ k ≤ n := by
  intro n
  induction n with
  | zero =>
    intro fuel reads retries hr _ hf
    obtain ⟨f, rfl⟩ : ∃ f, fuel = f + 1 := ⟨fuel - 1, by omega⟩
    subst hr
    exact ⟨0, 0, by simp [handshake_poll], le_refl _⟩
  | succ n ih =>
    intro fuel reads retries hr hle hf
    obtain ⟨f, rfl⟩ : ∃ f, fuel = f + 1 := ⟨fuel - 1, by omega⟩
    have hm : (retries + 65535) % 65536 = n + 1 := by omega
    by_cases hc : line reads = level
    · obtain ⟨r, k, hk, hkn⟩ := ih f (reads + 1) (n + 1) rfl (by omega) (by omega)
      refine ⟨r, k + 1, ?_, by omega⟩
      rw [handshake_poll]
      simp only [hm, Nat.add_one_ne_zero, if_false, if_pos hc, hk]
      simp [Nat.add_assoc, Nat.add_comm 1 k]
    · refine ⟨n + 1, 1, ?_, by omega⟩
      rw [handshake_poll]
      simp only [hm, Nat.add_one_ne_zero, if_false, if_neg hc]

theorem handshake_poll_held (level : Bool) (line : Nat → Bool) (hl : ∀ k, line k = level) :
    ∀ (n fuel reads retries : Nat), retries = n + 1 → retries ≤ 65535 → n < fuel →
      handshake_poll level line fuel reads retries = some (0, reads + n) := by
  intro n
  induction n with
  | zero =>
    intro fuel reads retries hr _ hf
    obtain ⟨f, rfl⟩ : ∃ f, fuel = f + 1 := ⟨fuel - 1, by omega⟩
    subst hr
    simp [handshake_poll]
  | succ n ih =>
    intro fuel reads retries hr hle hf
    obtain ⟨f, rfl⟩ : ∃ f, fuel = f + 1 := ⟨fuel - 1, by omega⟩
    have hm : (retries + 65535) % 65536 = n + 1 := by omega
    rw [handshake_poll]
    simp only [hm, Nat.add_one_ne_zero, if_false, if_pos (hl reads),
      ih f (reads + 1) (n + 1) rfl (by omega) (by omega)]
    simp [Nat.add_assoc, Nat.add_comm 1 n]

theorem handshake_poll_other (level : Bool) (line : Nat → Bool) (fuel reads : Nat)
    (hl : line reads ≠ level) (hf : 0 < fuel) :
    handshake_poll level line fuel reads 500 = some (499, reads + 1) := by
  obtain ⟨f, rfl⟩ : ∃ f, fuel = f + 1 := ⟨fuel - 1, by omega⟩
  rw [handshake_poll]
  simp [if_neg hl]

/-! ## The scratchpad as an array -/

theorem bytes_set_byte_same (buf : AM2301ScratchPad) (a v : Nat) (ha : a < 5) :
    (buf.set_byte a v).bytes a = v := by
  interval_cases a <;> rfl

theorem bytes_set_byte_other (buf : AM2301ScratchPad) (a a1 v : Nat) (h : a1 ≠ a) :
    (buf.set_byte a v).bytes a1 = buf.bytes a1 := by
  unfold AM2301ScratchPad.set_byte
  split <;> unfold AM2301ScratchPad.bytes <;> split <;> simp_all

theorem scratchpad_ext (x y : AM2301ScratchPad) (h : ∀ a, a < 5 → x.bytes a = y.bytes a) :
    x = y := by
  have h0 := h 0 (by decide)
  have h1 := h 1 (by decide)
  have h2 := h 2 (by decide)
  have h3 := h 3 (by decide)
  have h4 := h 4 (by decide)
  cases x
  cases y
  simp only [AM2301ScratchPad.bytes] at h0 h1 h2 h3 h4
  simp [h0, h1, h2, h3, h4]

theorem testBit_or_shift (x b i : Nat) (hx : x < 256) (hb : b ≤ 7) :
    ((x ||| (1 <<< b)) % 256).testBit i = (x.testBit i || decide (b = i)) := by
  have h1 : (1 : Nat) <<< b < 2 ^ 8 := by
    rw [Nat.one_shiftLeft]
    exact Nat.pow_lt_pow_right (by decide) (by omega)
  have h2 : x ||| (1 <<< b) < 256 := Nat.or_lt_two_pow (n := 8) hx h1
  rw [Nat.mod_eq_of_lt h2, Nat.testBit_or, Nat.one_shiftLeft, Nat.testBit_two_pow]

theorem or_shift_lt (x b : Nat) : (x ||| (1 <<< b)) % 256 < 256 :=
  Nat.mod_lt _ (by decide)

/-! ## The bit loop -/

theorem bit_loop_total (F : Nat) (line : Nat → Bool) (a : Nat) (hF : 65536 ≤ F) (ha : a < 5) :
    ∀ (b fuel reads : Nat) (buf : AM2301ScratchPad), b ≤ 7 → b + 1 < fuel →
      (∀ a1, buf.bytes a1 < 256) →
      ∃ buf1 k pulses, bit_loop F line a fuel reads b buf = some (buf1, reads + k, pulses) ∧
        pulses.length = b + 1 ∧ k ≤ (b + 1) * 131072 ∧
        (∀ a1, a1 ≠ a → buf1.bytes a1 = buf.bytes a1) ∧
        (∀ a1, buf1.bytes a1 < 256) ∧
        (∀ j, j ≤ b → (buf1.bytes a).testBit (b - j) =
          ((buf.bytes a).testBit (b - j) ||
            decide ((pulses.getD j (0, 0)).2 > (pulses.getD j (0, 0)).1))) ∧
        (∀ i, b < i → (buf1.bytes a).testBit i = (buf.bytes a).testBit i) ∧
        (∀ p, p ∈ pulses → p.1 ≤ 65535 ∧ p.2 ≤ 65535) := by
  intro b
  induction b with
  | zero =>
    intro fuel reads buf _ hf hbuf
    obtain ⟨f, rfl⟩ : ∃ f, fuel = f + 2 := ⟨fuel - 2, by omega⟩
    obtain ⟨lT, k1, e1, -, hl, hk1⟩ := read_signal_total false line 65535 F reads 0 rfl (by omega)
    obtain ⟨hT, k2, e2, -, hh, hk2⟩ :=
      read_signal_total true line 65535 F (reads + k1) 0 rfl (by omega)
    have hstep : ∀ a1, (if hT > lT then buf.set_byte a ((buf.bytes a ||| (1 <<< 0)) % 256)
        else buf).bytes a1 < 256 := by
      intro a1
      split
      · by_cases h : a1 = a
        · rw [h, bytes_set_byte_same _ _ _ ha]; exact or_shift_lt _ _
        · rw [bytes_set_byte_other _ _ _ _ h]; exact hbuf a1
      · exact hbuf a1
    refine ⟨_, k1 + k2, [(lT, hT)], ?_, rfl, by omega, ?_, hstep, ?_, ?_, ?_⟩
    · rw [bit_loop]
      simp only [e1, e2, ne_eq, Nat.zero_ne_add_one, not_false_eq_true, if_true]
      simp [bit_loop, Nat.add_assoc]
    · intro a1 h
      split
      · exact bytes_set_byte_other _ _ _ _ h
      · rfl
    · intro j hj
      have hj0 : j = 0 := by omega
      subst hj0
      by_cases hc : hT > lT
      · simp only [if_pos hc, bytes_set_byte_same _ _ _ ha, testBit_or_shift _ _ _ (hbuf a)
          (Nat.zero_le 7)]
        simp [hc]
      · simp [if_neg hc, hc]
    · intro i hi
      by_cases hc : hT > lT
      · simp only [if_pos hc, bytes_set_byte_same _ _ _ ha, testBit_or_shift _ _ _ (hbuf a)
          (Nat.zero_le 7)]
        have : ¬ (0 = i) := by omega
        simp [this]
      · simp [if_neg hc]
    · intro p hp
      simp only [List.mem_singleton] at hp
      subst hp
      exact ⟨hl, hh⟩
  | succ b ih =>
    intro fuel reads buf hb hf hbuf
    obtain ⟨f, rfl⟩ : ∃ f, fuel = f + 1 := ⟨fuel - 1, by omega⟩
    obtain ⟨lT, k1, e1, -, hl, hk1⟩ := read_signal_total false line 65535 F reads 0 rfl (by omega)
    obtain ⟨hT, k2, e2, -, hh, hk2⟩ :=
      read_signal_total true line 65535 F (reads + k1) 0 rfl (by omega)
    have hstep : ∀ a1, (if hT > lT then buf.set_byte a ((buf.bytes a ||| (1 <<< (b + 1))) % 256)
        else buf).bytes a1 < 256 := by
      intro a1
      split
      · by_cases h : a1 = a
        · rw [h, bytes_set_byte_same _ _ _ ha]; exact or_shift_lt _ _
        · rw [bytes_set_byte_other _ _ _ _ h]; exact hbuf a1
      · exact hbuf a1
    obtain ⟨buf2, k3, ps, e3, hlen, hk3, hoth, hlt, hbits, hhigh, hps⟩ :=
      ih f (reads + k1 + k2) _ (by omega) (by omega) hstep
    have hmod : (b + 1 + 255) % 256 = b := by omega
    have hone : ∀ i, i ≠ b + 1 →
        ((if hT > lT then buf.set_byte a ((buf.bytes a ||| (1 <<< (b + 1))) % 256)
          else buf).bytes a).testBit i = (buf.bytes a).testBit i := by
      intro i hi
      by_cases hc : hT > lT
      · simp only [if_pos hc, bytes_set_byte_same _ _ _ ha, testBit_or_shift _ _ _ (hbuf a) hb]
        have : ¬ (b + 1 = i) := fun h => hi h.symm
        simp [this]
      · simp [if_neg hc]
    refine ⟨buf2, k1 + k2 + k3, (lT, hT) :: ps, ?_, by simp [hlen], by omega, ?_, hlt, ?_, ?_, ?_⟩
    · rw [bit_loop]
      have hne : b + 1 ≠ 255 := by omega
      simp only [e1, e2, ne_eq, hne, not_false_eq_true, if_true, hmod, e3]
      simp [Nat.add_assoc]
    · intro a1 h
      rw [hoth a1 h]
      split
      · exact bytes_set_byte_other _ _ _ _ h
      · rfl
    · intro j hj
      cases j with
      | zero =>
        rw [Nat.sub_zero, hhigh (b + 1) (by omega)]
        by_cases hc : hT > lT
        · simp only [if_pos hc, bytes_set_byte_same _ _ _ ha,
            testBit_or_shift _ _ _ (hbuf a) hb]
          simp [hc]
        · simp [if_neg hc, hc]
      | succ j =>
        have e : b + 1 - (j + 1) = b - j := by omega
        rw [e, hbits j (by omega), hone (b - j) (by omega)]
        simp
    · intro i hi
      rw [hhigh i (by omega), hone i (by omega)]
    · intro p hp
      rcases List.mem_cons.mp hp with h | h
      · subst h; exact ⟨hl, hh⟩
      · exact hps p h

/-! ## The byte loop and the frame -/

theorem byte_loop_total (F : Nat) (line : Nat → Bool) (hF : 65536 ≤ F) :
    ∀ (n fuel reads a : Nat) (buf : AM2301ScratchPad), a + n = 5 → n < fuel →
      (∀ a1, buf.bytes a1 < 256) →
      ∃ buf1 k pulses, byte_loop F line fuel reads a buf = some (buf1, reads + k, pulses) ∧
        pulses.length = 8 * n ∧ k ≤ n * (8 * 131072) ∧
        (∀ a1, a1 < a → buf1.bytes a1 = buf.bytes a1) ∧
        (∀ a1, buf1.bytes a1 < 256) ∧
        (∀ a1 j, a ≤ a1 → a1 < 5 → j ≤ 7 → (buf1.bytes a1).testBit (7 - j) =
          ((buf.bytes a1).testBit (7 - j) ||
            decide ((pulses.getD (8 * (a1 - a) + j) (0, 0)).2 >
              (pulses.getD (8 * (a1 - a) + j) (0, 0)).1))) ∧
        (∀ a1 i, 7 < i → (buf1.bytes a1).testBit i = (buf.bytes a1).testBit i) ∧
        (∀ p, p ∈ pulses → p.1 ≤ 65535 ∧ p.2 ≤ 65535) := by
  intro n
  induction n with
  | zero =>
    intro fuel reads a buf han hf hbuf
    obtain ⟨f, rfl⟩ : ∃ f, fuel = f + 1 := ⟨fuel - 1, by omega⟩
    have h5 : ¬ a < 5 := by omega
    refine ⟨buf, 0, [], ?_, rfl, le_refl _, fun _ _ => rfl, hbuf, ?_, fun _ _ _ => rfl, ?_⟩
    · rw [byte_loop, if_neg h5]; rfl
    · intro a1 j h1 h2; omega
    · intro p hp; cases hp
  | succ n ih =>
    intro fuel reads a buf han hf hbuf
    obtain ⟨f, rfl⟩ : ∃ f, fuel = f + 1 := ⟨fuel - 1, by omega⟩
    have h5 : a < 5 := by omega
    obtain ⟨buf1, k1, ps1, e1, hlen1, hk1, hoth1, hlt1, hbits1, hhigh1, hps1⟩ :=
      bit_loop_total F line a hF h5 7 F reads buf (le_refl _) (by omega) hbuf
    obtain ⟨buf2, k2, ps2, e2, hlen2, hk2, hlow2, hlt2, hbits2, hhigh2, hps2⟩ :=
      ih f (reads + k1) (a + 1) buf1 (by omega) (by omega) hlt1
    have hmod : (a + 1) % 256 = a + 1 := by omega
    refine ⟨buf2, k1 + k2, ps1 ++ ps2, ?_, ?_, by omega, ?_, hlt2, ?_, ?_, ?_⟩
    · rw [byte_loop, if_pos h5]
      simp only [e1, hmod, e2]
      simp [Nat.add_assoc]
    · rw [List.length_append, hlen1, hlen2]; omega
    · intro a1 h
      rw [hlow2 a1 (by omega), hoth1 a1 (by omega)]
    · intro a1 j h1 h2 hj
      by_cases h : a1 = a
      · subst h
        rw [hlow2 a1 (by omega), hbits1 j hj, Nat.sub_self, Nat.mul_zero, Nat.zero_add,
          List.getD_append _ _ _ j (by omega)]
      · have hidx : 8 * (a1 - a) + j - ps1.length = 8 * (a1 - (a + 1)) + j := by omega
        rw [hbits2 a1 j (by omega) h2 hj, hoth1 a1 h,
          List.getD_append_right _ _ _ _ (by omega), hidx]
    · intro a1 i hi
      rw [hhigh2 a1 i hi]
      by_cases h : a1 = a
      · subst h; exact hhigh1 i hi
      · rw [hoth1 a1 h]
    · intro p hp
      rcases List.mem_append.mp hp with h | h
      · exact hps1 p h
      · exact hps2 p h

theorem bytes_zero (a : Nat) : scratchpad_zero.bytes a = 0 := by
  unfold AM2301ScratchPad.bytes scratchpad_zero
  split <;> rfl

theorem read_frame_total (F : Nat) (line : Nat → Bool) (reads : Nat) (hF : 65536 ≤ F) :
    ∃ buf k pulses, read_frame F line reads = some (buf, reads + k, pulses) ∧
      pulses.length = 40 ∧ k ≤ 80 * 65536 ∧
      (∀ a1, buf.bytes a1 < 256) ∧
      (∀ a1 j, a1 < 5 → j ≤ 7 → (buf.bytes a1).testBit (7 - j) =
        decide ((pulses.getD (8 * a1 + j) (0, 0)).2 > (pulses.getD (8 * a1 + j) (0, 0)).1)) ∧
      (∀ p, p ∈ pulses → p.1 ≤ 65535 ∧ p.2 ≤ 65535) := by
  have hz : ∀ a1, scratchpad_zero.bytes a1 < 256 := by
    intro a1; rw [bytes_zero]; decide
  obtain ⟨buf, k, ps, e, hlen, hk, -, hlt, hbits, -, hps⟩ :=
    byte_loop_total F line hF 5 F reads 0 scratchpad_zero rfl (by omega) hz
  refine ⟨buf, k, ps, e, hlen, by omega, hlt, ?_, hps⟩
  intro a1 j h1 hj
  rw [hbits a1 j (Nat.zero_le _) h1 hj, bytes_zero]
  simp

/-! ## Checksum and conversion -/

theorem shift_or_eq (msb lsb : Nat) (hm : msb < 256) (hl : lsb < 256) :
    ((msb <<< 8) ||| lsb) % 65536 = msb * 256 + lsb := by
  have h := Nat.mul_add_lt_is_or (i := 8) (b := lsb) hl msb
  rw [Nat.shiftLeft_eq, Nat.mul_comm msb (2 ^ 8), ← h]
  exact Nat.mod_eq_of_lt (by omega)

theorem testBit_15 (t : Nat) (ht : t < 65536) : t.testBit 15 = decide (32768 ≤ t) := by
  rw [Nat.testBit_to_div_mod]
  congr 1
  apply propext
  constructor <;> intro h <;> omega

theorem read_bit_15 (t : Nat) : READ_BIT t (1 <<< 15) ≠ 0 ↔ t.testBit 15 = true := by
  unfold READ_BIT
  rw [Nat.one_shiftLeft, Nat.and_two_pow]
  cases t.testBit 15 <;> simp

theorem clear_bit_15 (t : Nat) : CLEAR_BIT t (1 <<< 15) = t % 32768 := by
  unfold CLEAR_BIT
  apply Nat.eq_of_testBit_eq
  intro i
  have e1 : (65536 : Nat) = 2 ^ 16 := by norm_num
  have e2 : (32768 : Nat) = 2 ^ 15 := by norm_num
  have e3 : (4294967295 : Nat) - 1 <<< 15 = 4294934527 := by decide
  rw [e1, e2, e3, Nat.testBit_mod_two_pow, Nat.testBit_mod_two_pow, Nat.testBit_and]
  by_cases h : i < 15
  · have hb : (4294934527 : Nat).testBit i = true := by
      interval_cases i <;> decide
    have h16 : i < 16 := by omega
    simp [h, h16, hb]
  · by_cases h15 : i = 15
    · subst h15
      have hb : (4294934527 : Nat).testBit 15 = false := by decide
      simp [hb]
    · have h16 : ¬ i < 16 := by omega
      simp [h, h16]

theorem store_humidity_eq (context : ThermoContext) (buf : AM2301ScratchPad)
    (h0 : buf.hum_msb < 256) (h1 : buf.hum_lsb < 256) :
    store_humidity context buf =
      { context with humidity := (((buf.hum_msb * 256 + buf.hum_lsb) / 10 : Nat) : Int) } := by
  unfold store_humidity
  simp only [shift_or_eq _ _ h0 h1, ← Int.ofNat_tdiv]
  rfl

theorem store_temperature_eq (context : ThermoContext) (buf : AM2301ScratchPad)
    (h2 : buf.temp_msb < 256) (h3 : buf.temp_lsb < 256) :
    store_temperature context buf =
      { context with
          temp_celsius :=
            if (buf.temp_msb * 256 + buf.temp_lsb).testBit 15 = true then
              -((((buf.temp_msb * 256 + buf.temp_lsb) % 32768 / 10 : Nat) : Int))
            else (((buf.temp_msb * 256 + buf.temp_lsb) % 32768 / 10 : Nat) : Int) } := by
  unfold store_temperature
  simp only [shift_or_eq _ _ h2 h3, read_bit_15, clear_bit_15]
  by_cases hb : (buf.temp_msb * 256 + buf.temp_lsb).testBit 15 = true
  · rw [if_pos hb, if_pos hb]
    rw [Int.ofNat_tdiv, Int.tdiv_neg]
    rfl
  · rw [if_neg hb, if_neg hb]
    have hlt : buf.temp_msb * 256 + buf.temp_lsb < 32768 := by
      have := testBit_15 (buf.temp_msb * 256 + buf.temp_lsb) (by omega)
      rw [this] at hb
      simpa using hb
    rw [Nat.mod_eq_of_lt hlt, Int.ofNat_tdiv]
    rfl

/-! ## A line that never changes level -/

theorem bit_loop_low (F : Nat) (line : Nat → Bool) (a : Nat) (hF : 65536 ≤ F)
    (hl : ∀ k, line k = false) :
    ∀ (b fuel reads : Nat) (buf : AM2301ScratchPad), b ≤ 7 → b + 1 < fuel →
      bit_loop F line a fuel reads b buf =
        some (buf, reads + (b + 1) * 65537, List.replicate (b + 1) (65535, 0)) := by
  have hlow : ∀ reads, read_signal false line F reads 0 = some (65535, reads + 65536) :=
    fun reads => read_signal_held false line hl 65535 F reads 0 rfl (by omega)
  have hhigh : ∀ reads, read_signal true line F reads 0 = some (0, reads + 1) :=
    fun reads => read_signal_other true line F reads 0 (by simp [hl]) (by omega)
  intro b
  induction b with
  | zero =>
    intro fuel reads buf _ hf
    obtain ⟨f, rfl⟩ : ∃ f, fuel = f + 2 := ⟨fuel - 2, by omega⟩
    rw [bit_loop]
    simp [hlow, hhigh, bit_loop, Nat.add_assoc]
  | succ b ih =>
    intro fuel reads buf hb hf
    obtain ⟨f, rfl⟩ : ∃ f, fuel = f + 1 := ⟨fuel - 1, by omega⟩
    have hmod : (b + 1 + 255) % 256 = b := by omega
    have hne : b + 1 ≠ 255 := by omega
    rw [bit_loop]
    simp only [hlow, hhigh, ne_eq, hne, not_false_eq_true, if_true, hmod, gt_iff_lt,
      Nat.not_lt_zero, if_false, ih f _ buf (by omega) (by omega)]
    simp [List.replicate_succ, Nat.add_assoc, Nat.add_mul]
    omega

theorem read_frame_low (F : Nat) (line : Nat → Bool) (reads : Nat) (hF : 65536 ≤ F)
    (hl : ∀ k, line k = false) :
    read_frame F line reads =
      some (scratchpad_zero, reads + 2621480, List.replicate 40 (65535, 0)) := by
  have hb : ∀ a reads buf, bit_loop F line a F reads 7 buf =
      some (buf, reads + 8 * 65537, List.replicate 8 (65535, 0)) :=
    fun a reads buf => bit_loop_low F line a hF hl 7 F reads buf (le_refl _) (by omega)
  obtain ⟨f, hf⟩ : ∃ f, F = f + 6 := ⟨F - 6, by omega⟩
  unfold read_frame
  rw [hf, byte_loop, ← hf, if_pos (by decide), hb]
  simp only []
  rw [hf, byte_loop, ← hf, if_pos (by decide), hb]
  simp only []
  rw [hf, byte_loop, ← hf, if_pos (by decide), hb]
  simp only []
  rw [hf, byte_loop, ← hf, if_pos (by decide), hb]
  simp only []
  rw [hf, byte_loop, ← hf, if_pos (by decide), hb]
  simp only []
  rw [hf, byte_loop, if_neg (by decide)]
  simp only [Nat.add_assoc, List.append_nil]
  rfl

theorem bit_loop_high_step (F : Nat) (line : Nat → Bool) (a : Nat) (hF : 65536 ≤ F)
    (hl : ∀ k, line k = true) (f reads b : Nat) (buf : AM2301ScratchPad) (hb : b ≠ 255) :
    bit_loop F line a (f + 1) reads b buf =
      match bit_loop F line a f (reads + 65537) ((b + 255) % 256)
          (buf.set_byte a ((buf.bytes a ||| (1 <<< b)) % 256)) with
      | none => none
      | some (buf2, reads3, pulses) => some (buf2, reads3, (0, 65535) :: pulses) := by
  have hlow : ∀ reads, read_signal false line F reads 0 = some (0, reads + 1) :=
    fun reads => read_signal_other false line F reads 0 (by simp [hl]) (by omega)
  have hhigh : ∀ reads, read_signal true line F reads 0 = some (65535, reads + 65536) :=
    fun reads => read_signal_held true line hl 65535 F reads 0 rfl (by omega)
  rw [bit_loop, if_pos hb]
  simp only [hlow, hhigh]
  have h : (65535 : Nat) > 0 := by omega
  have e : ∀ r : Nat, r + 1 + 65536 = r + 65537 := fun r => by omega
  conv_lhs => rw [e, if_pos h]

theorem bit_loop_high_fuel (F : Nat) (line : Nat → Bool) (a : Nat) (hF : 65536 ≤ F) (ha : a < 5)
    (hl : ∀ k, line k = true) (f reads : Nat) (buf : AM2301ScratchPad) (hbuf : buf.bytes a = 0) :
    bit_loop F line a (f + 9) reads 7 buf =
      some (buf.set_byte a 255, reads + 524296, List.replicate 8 (0, 65535)) := by
  have hs := bit_loop_high_step F line a hF hl
  have hset : ∀ (x : AM2301ScratchPad) (v w : Nat),
      (x.set_byte a v).set_byte a w = x.set_byte a w := by
    intro x v w
    interval_cases a <;> rfl
  have e : ∀ r : Nat, r + 65537 + 65537 + 65537 + 65537 + 65537 + 65537 + 65537 + 65537 =
      r + 524296 := fun r => by omega
  have hend : ∀ r x, bit_loop F line a (f + 1) r 255 x = some (x, r, []) := by
    intro r x
    rw [bit_loop, if_neg (by decide)]
  rw [hs (f + 8) _ 7 _ (by decide), hs (f + 7) _ _ _ (by decide), hs (f + 6) _ _ _ (by decide),
    hs (f + 5) _ _ _ (by decide), hs (f + 4) _ _ _ (by decide), hs (f + 3) _ _ _ (by decide),
    hs (f + 2) _ _ _ (by decide), hs (f + 1) _ _ _ (by decide)]
  simp only [bytes_set_byte_same _ _ _ ha, hset, hbuf]
  conv_lhs => rw [e]
  conv_lhs =>
    simp only [Nat.reduceAdd, Nat.reduceMod, Nat.reduceShiftLeft, Nat.reduceOr]
    rw [hend]
  rfl

theorem bit_loop_high (F : Nat) (line : Nat → Bool) (a : Nat) (hF : 65536 ≤ F) (ha : a < 5)
    (hl : ∀ k, line k = true) (reads : Nat) (buf : AM2301ScratchPad) (hbuf : buf.bytes a = 0) :
    bit_loop F line a F reads 7 buf =
      some (buf.set_byte a 255, reads + 524296, List.replicate 8 (0, 65535)) := by
  obtain ⟨f, hf⟩ : ∃ f, F = f + 9 := ⟨F - 9, by omega⟩
  have h := bit_loop_high_fuel F line a hF ha hl f reads buf hbuf
  rw [← hf] at h
  exact h

theorem read_frame_high (F : Nat) (line : Nat → Bool) (reads : Nat) (hF : 65536 ≤ F)
    (hl : ∀ k, line k = true) :
    read_frame F line reads =
      some (⟨255, 255, 255, 255, 255⟩, reads + 2621480, List.replicate 40 (0, 65535)) := by
  have hb : ∀ a reads buf, a < 5 → buf.bytes a = 0 → bit_loop F line a F reads 7 buf =
      some (buf.set_byte a 255, reads + 524296, List.replicate 8 (0, 65535)) :=
    fun a reads buf ha h => bit_loop_high F line a hF ha hl reads buf h
  have e : reads + 524296 + 524296 + 524296 + 524296 + 524296 = reads + 2621480 := by omega
  obtain ⟨f, hf⟩ : ∃ f, F = f + 6 := ⟨F - 6, by omega⟩
  unfold read_frame
  conv_lhs =>
    rw [hf, byte_loop, ← hf, if_pos (by decide), hb 0 _ scratchpad_zero (by decide) rfl]
    simp only []
    rw [hf, byte_loop, ← hf, if_pos (by decide), hb 1 _ (scratchpad_zero.set_byte 0 255) (by decide) rfl]
    simp only []
    rw [hf, byte_loop, ← hf, if_pos (by decide), hb 2 _ ((scratchpad_zero.set_byte 0 255).set_byte 1 255) (by decide) rfl]
    simp only []
    rw [hf, byte_loop, ← hf, if_pos (by decide), hb 3 _ (((scratchpad_zero.set_byte 0 255).set_byte 1 255).set_byte 2 255) (by decide) rfl]
    simp only []
    rw [hf, byte_loop, ← hf, if_pos (by decide), hb 4 _ ((((scratchpad_zero.set_byte 0 255).set_byte 1 255).set_byte 2 255).set_byte 3 255) (by decide) rfl]
    simp only []
    rw [hf, byte_loop, if_neg (by decide)]
    simp only [e, List.append_nil]
  rfl

/-! ## The handshake and the whole cycle -/

theorem handshake_total (F : Nat) (line : Nat → Bool) (reads : Nat) (hF : 65536 ≤ F) :
    ∃ k, handshake F line reads = some (reads + k) ∧ k ≤ 1996 := by
  obtain ⟨r1, k1, e1, h1⟩ :=
    handshake_poll_total false line 499 F reads 500 rfl (by omega) (by omega)
  obtain ⟨r2, k2, e2, h2⟩ :=
    handshake_poll_total true line 499 F (reads + k1) 500 rfl (by omega) (by omega)
  obtain ⟨r3, k3, e3, h3⟩ :=
    handshake_poll_total false line 499 F (reads + k1 + k2) 500 rfl (by omega) (by omega)
  obtain ⟨r4, k4, e4, h4⟩ :=
    handshake_poll_total true line 499 F (reads + k1 + k2 + k3) 500 rfl (by omega) (by omega)
  refine ⟨k1 + k2 + k3 + k4, ?_, by omega⟩
  have e : reads + (k1 + k2 + k3 + k4) = reads + k1 + k2 + k3 + k4 := by omega
  unfold handshake
  rw [e, e1]
  simp only []
  rw [e2]
  simp only []
  rw [e3]
  simp only []
  rw [e4]

theorem handshake_low (F : Nat) (line : Nat → Bool) (reads : Nat) (hF : 65536 ≤ F)
    (hl : ∀ k, line k = false) : handshake F line reads = some (reads + 1000) := by
  have h1 : ∀ r, handshake_poll false line F r 500 = some (0, r + 499) :=
    fun r => handshake_poll_held false line hl 499 F r 500 rfl (by omega) (by omega)
  have h2 : ∀ r, handshake_poll true line F r 500 = some (499, r + 1) :=
    fun r => handshake_poll_other true line F r (by simp [hl]) (by omega)
  unfold handshake
  simp only [h1, h2, Nat.add_assoc]

theorem handshake_high (F : Nat) (line : Nat → Bool) (reads : Nat) (hF : 65536 ≤ F)
    (hl : ∀ k, line k = true) : handshake F line reads = some (reads + 1000) := by
  have h1 : ∀ r, handshake_poll true line F r 500 = some (0, r + 499) :=
    fun r => handshake_poll_held true line hl 499 F r 500 rfl (by omega) (by omega)
  have h2 : ∀ r, handshake_poll false line F r 500 = some (499, r + 1) :=
    fun r => handshake_poll_other false line F r (by simp [hl]) (by omega)
  unfold handshake
  simp only [h1, h2, Nat.add_assoc]

theorem poll_cycle_total (F : Nat) (line : Nat → Bool) (st : ReaderState) (hF : 65536 ≤ F) :
    ∃ buf k, k ≤ 1996 + 80 * 65536 ∧ (∀ a, buf.bytes a < 256) ∧
      poll_cycle F line st = some (finish_cycle
        { context := { st.context with has_device := true }
          pin := { st.pin with level := true }
          reads := st.reads + k
          trace := st.trace ++
            [Event.gpio_write false, Event.delay_ms 19, Event.gpio_write true] } buf) := by
  obtain ⟨k1, e1, h1⟩ := handshake_total F line st.reads hF
  obtain ⟨buf, k2, ps, e2, -, h2, hlt, -, -⟩ := read_frame_total F line (st.reads + k1) hF
  refine ⟨buf, k1 + k2, by omega, hlt, ?_⟩
  unfold poll_cycle
  simp only [e1, e2, Nat.add_assoc]

theorem poll_cycle_low (F : Nat) (line : Nat → Bool) (st : ReaderState) (hF : 65536 ≤ F)
    (hl : ∀ k, line k = false) :
    poll_cycle F line st = some (finish_cycle
      { context := { st.context with has_device := true }
        pin := { st.pin with level := true }
        reads := st.reads + 2622480
        trace := st.trace ++
          [Event.gpio_write false, Event.delay_ms 19, Event.gpio_write true] }
      scratchpad_zero) := by
  have e : st.reads + 2622480 = st.reads + 1000 + 2621480 := by omega
  conv_rhs => rw [e]
  unfold poll_cycle
  simp only [handshake_low F line _ hF hl, read_frame_low F line _ hF hl]

theorem poll_cycle_high (F : Nat) (line : Nat → Bool) (st : ReaderState) (hF : 65536 ≤ F)
    (hl : ∀ k, line k = true) :
    poll_cycle F line st = some (finish_cycle
      { context := { st.context with has_device := true }
        pin := { st.pin with level := true }
        reads := st.reads + 2622480
        trace := st.trace ++
          [Event.gpio_write false, Event.delay_ms 19, Event.gpio_write true] }
      ⟨255, 255, 255, 255, 255⟩) := by
  have e : st.reads + 2622480 = st.reads + 1000 + 2621480 := by omega
  conv_rhs => rw [e]
  unfold poll_cycle
  simp only [handshake_high F line _ hF hl, read_frame_high F line _ hF hl]

theorem finish_cycle_mismatch (st : ReaderState) (buf : AM2301ScratchPad)
    (h : checksum_mismatch buf = true) :
    finish_cycle st buf =
      ({ st with trace := st.trace ++ [Event.log_checksum_failure] }, false) := by
  unfold finish_cycle
  rw [if_pos h]

theorem finish_cycle_match (st : ReaderState) (buf : AM2301ScratchPad)
    (h : checksum_mismatch buf = false) :
    finish_cycle st buf =
      ({ st with
          context := store_reading st.context buf
          trace := st.trace ++
            [Event.log_reading (store_reading st.context buf).temp_celsius
               (store_reading st.context buf).humidity,
             Event.delay_us 10000] }, true) := by
  unfold finish_cycle
  rw [if_neg (by simp [h])]

theorem store_reading_zero (context : ThermoContext) :
    store_reading context scratchpad_zero =
      { context with humidity := 0, temp_celsius := 0 } := by
  unfold store_reading
  rw [store_temperature_eq _ _ (by decide) (by decide),
    store_humidity_eq _ _ (by decide) (by decide)]
  rfl

/-! ## The acquisition loop -/

theorem reader_loop_append (tf F : Nat) (line : Nat → Bool) :
    ∀ (pre waits : List Nat) (st st1 : ReaderState),
      reader_loop tf F line pre st = some (st1, false) →
      reader_loop tf F line (pre ++ waits) st = reader_loop tf F line waits st1 := by
  intro pre
  induction pre with
  | nil =>
    intro waits st st1 h
    simp only [reader_loop, Option.some.injEq, Prod.mk.injEq, and_true] at h
    rw [List.nil_append, h]
  | cons w pre ih =>
    intro waits st st1 h
    rw [List.cons_append, reader_loop]
    rw [reader_loop] at h
    by_cases hw : w ≠ tf
    · simp [if_pos hw] at h
    · simp only [if_neg hw] at h ⊢
      cases hp : poll_cycle F line
          { st with trace := st.trace ++ [Event.thread_flags_wait UPDATE_PERIOD_MS w] } with
      | none => simp [hp] at h
      | some r =>
        obtain ⟨st2, ok⟩ := r
        simp only [hp] at h ⊢
        exact ih waits st2 st1 h

theorem reader_loop_timeouts (tf F : Nat) (line : Nat → Bool) (hF : 65536 ≤ F) :
    ∀ (pre : List Nat) (st : ReaderState), (∀ w, w ∈ pre → w = tf) →
      ∃ st1, reader_loop tf F line pre st = some (st1, false) := by
  intro pre
  induction pre with
  | nil =>
    intro st _
    exact ⟨st, rfl⟩
  | cons w pre ih =>
    intro st h
    have hw : w = tf := h w (List.mem_cons_self _ _)
    subst hw
    obtain ⟨buf, k, -, -, e⟩ := poll_cycle_total F line
      { st with trace := st.trace ++ [Event.thread_flags_wait UPDATE_PERIOD_MS w] } hF
    rw [reader_loop]
    simp only [ne_eq, not_true_eq_false, if_false, e]
    exact ih _ (fun x hx => h x (List.mem_cons_of_mem _ hx))

/-! ## Claims -/

/-- C1: for every 5-byte frame `b0..b4` with `b4 = (b0+b1+b2+b3) mod 256`, the end of the
poll cycle (lines 199-223) passes the checksum check, stores
`humidity = (b0*256+b1) div 10` and, with `t = b2*256+b3` and `m = t mod 32768` (`t` with
bit 15 cleared), `temp_celsius = m div 10` when bit 15 of `t` is clear and `-(m div 10)`
when it is set, logs the reading and sleeps 10000 us. The second part states the same
for a whole poll cycle whose bit loop has read that frame. -/
theorem valid_frame_is_stored (st : ReaderState) (b0 b1 b2 b3 b4 : Nat)
    (h0 : b0 < 256) (h1 : b1 < 256) (h2 : b2 < 256) (h3 : b3 < 256)
    (hsum : b4 = (b0 + b1 + b2 + b3) % 256) :
    finish_cycle st ⟨b0, b1, b2, b3, b4⟩ =
        ({ st with
            context :=
              { st.context with
                  humidity := (((b0 * 256 + b1) / 10 : Nat) : Int)
                  temp_celsius :=
                    if (b2 * 256 + b3).testBit 15 = true then
                      -((((b2 * 256 + b3) % 32768 / 10 : Nat) : Int))
                    else (((b2 * 256 + b3) % 32768 / 10 : Nat) : Int) }
            trace := st.trace ++
              [Event.log_reading
                 (if (b2 * 256 + b3).testBit 15 = true then
                    -((((b2 * 256 + b3) % 32768 / 10 : Nat) : Int))
                  else (((b2 * 256 + b3) % 32768 / 10 : Nat) : Int))
                 (((b0 * 256 + b1) / 10 : Nat) : Int),
               Event.delay_us 10000] }, true) ∧
      ∀ (F : Nat) (line : Nat → Bool) (st0 : ReaderState) (reads1 reads2 : Nat)
        (pulses : List (Nat × Nat)),
        handshake F line st0.reads = some reads1 →
        read_frame F line reads1 = some (⟨b0, b1, b2, b3, b4⟩, reads2, pulses) →
        ∃ st1, poll_cycle F line st0 = some (st1, true) ∧
          st1.context.has_device = true ∧
          st1.context.humidity = (((b0 * 256 + b1) / 10 : Nat) : Int) ∧
          st1.context.temp_celsius =
            (if (b2 * 256 + b3).testBit 15 = true then
              -((((b2 * 256 + b3) % 32768 / 10 : Nat) : Int))
            else (((b2 * 256 + b3) % 32768 / 10 : Nat) : Int)) := by
  have hc : checksum_mismatch ⟨b0, b1, b2, b3, b4⟩ = false := by
    simp [checksum_mismatch, hsum]
  have hfin : ∀ st : ReaderState, finish_cycle st ⟨b0, b1, b2, b3, b4⟩ =
      ({ st with
          context :=
            { st.context with
                humidity := (((b0 * 256 + b1) / 10 : Nat) : Int)
                temp_celsius :=
                  if (b2 * 256 + b3).testBit 15 = true then
                    -((((b2 * 256 + b3) % 32768 / 10 : Nat) : Int))
                  else (((b2 * 256 + b3) % 32768 / 10 : Nat) : Int) }
          trace := st.trace ++
            [Event.log_reading
               (if (b2 * 256 + b3).testBit 15 = true then
                  -((((b2 * 256 + b3) % 32768 / 10 : Nat) : Int))
                else (((b2 * 256 + b3) % 32768 / 10 : Nat) : Int))
               (((b0 * 256 + b1) / 10 : Nat) : Int),
             Event.delay_us 10000] }, true) := by
    intro st
    rw [finish_cycle_match _ _ hc]
    unfold store_reading
    rw [store_temperature_eq _ _ h2 h3, store_humidity_eq _ _ h0 h1]
  refine ⟨hfin st, ?_⟩
  intro F line st0 reads1 reads2 pulses hh hr
  have hp := hfin
    { context := { st0.context with has_device := true }
      pin := { st0.pin with level := true }
      reads := reads2
      trace := st0.trace ++
        [Event.gpio_write false, Event.delay_ms 19, Event.gpio_write true] }
  have hq : poll_cycle F line st0 = some (finish_cycle
      { context := { st0.context with has_device := true }
        pin := { st0.pin with level := true }
        reads := reads2
        trace := st0.trace ++
          [Event.gpio_write false, Event.delay_ms 19, Event.gpio_write true] }
      ⟨b0, b1, b2, b3, b4⟩) := by
    unfold poll_cycle
    simp only [hh, hr]
  rw [hp] at hq
  exact ⟨_, hq, rfl, rfl, rfl⟩

/-- Witness of C1: raw humidity 0x01F4 gives 50 and raw temperature 0x8032 gives -5; raw
temperature 0x0032 gives 5; and a whole poll cycle on `example_line`, which carries the
frame 01 F4 80 32 A7, stores 50 and -5. -/
theorem valid_frame_is_stored_witness :
    ((1 < 256 ∧ 244 < 256 ∧ 128 < 256 ∧ 50 < 256 ∧ 167 = (1 + 244 + 128 + 50) % 256) ∧
      finish_cycle example_state ⟨1, 244, 128, 50, 167⟩ =
        ({ example_state with
            context := { example_context with humidity := 50, temp_celsius := -5 }
            trace := [Event.log_reading (-5) 50, Event.delay_us 10000] }, true)) ∧
    ((1 < 256 ∧ 244 < 256 ∧ 0 < 256 ∧ 50 < 256 ∧ 39 = (1 + 244 + 0 + 50) % 256) ∧
      finish_cycle example_state ⟨1, 244, 0, 50, 39⟩ =
        ({ example_state with
            context := { example_context with humidity := 50, temp_celsius := 5 }
            trace := [Event.log_reading 5 50, Event.delay_us 10000] }, true)) ∧
    (handshake 65536 example_line example_state.reads = some 4 ∧
      read_frame 65536 example_line 4 = some (⟨1, 244, 128, 50, 167⟩, 124, example_pulses) ∧
      ∃ st1, poll_cycle 65536 example_line example_state = some (st1, true) ∧
        st1.context.has_device = true ∧ st1.context.humidity = 50 ∧
        st1.context.temp_celsius = -5) :=
  ⟨⟨by decide,
      (valid_frame_is_stored example_state 1 244 128 50 167 (by decide) (by decide) (by decide)
        (by decide) (by decide)).1.trans (by decide)⟩,
    ⟨by decide,
      (valid_frame_is_stored example_state 1 244 0 50 39 (by decide) (by decide) (by decide)
        (by decide) (by decide)).1.trans (by decide)⟩,
    by decide, by decide,
    match (valid_frame_is_stored example_state 1 244 128 50 167 (by decide) (by decide)
        (by decide) (by decide) (by decide)).2 65536 example_line example_state 4 124
        example_pulses (by decide) (by decide) with
    | ⟨st1, h1, h2, h3, h4⟩ => ⟨st1, h1, h2, h3.trans (by decide), h4.trans (by decide)⟩⟩

/-- C2: for every 5-byte frame with `b4 ≠ (b0+b1+b2+b3) mod 256` and every prior state, the
end of the poll cycle takes the checksum-failure branch: it only logs the failure, so the
context (`temp_celsius` and `humidity` included) is what it was. For a whole poll cycle
whose bit loop has read that frame, `temp_celsius` and `humidity` are the values from
before the cycle. -/
theorem checksum_failure_keeps_reading (b0 b1 b2 b3 b4 : Nat)
    (hne : b4 ≠ (b0 + b1 + b2 + b3) % 256) :
    (∀ st : ReaderState, finish_cycle st ⟨b0, b1, b2, b3, b4⟩ =
        ({ st with trace := st.trace ++ [Event.log_checksum_failure] }, false)) ∧
      ∀ (F : Nat) (line : Nat → Bool) (st0 : ReaderState) (reads1 reads2 : Nat)
        (pulses : List (Nat × Nat)),
        handshake F line st0.reads = some reads1 →
        read_frame F line reads1 = some (⟨b0, b1, b2, b3, b4⟩, reads2, pulses) →
        ∃ st1, poll_cycle F line st0 = some (st1, false) ∧
          st1.context.temp_celsius = st0.context.temp_celsius ∧
          st1.context.humidity = st0.context.humidity := by
  have hc : checksum_mismatch ⟨b0, b1, b2, b3, b4⟩ = true := by
    simp [checksum_mismatch, Ne.symm hne]
  refine ⟨fun st => finish_cycle_mismatch st _ hc, ?_⟩
  intro F line st0 reads1 reads2 pulses hh hr
  have hq : poll_cycle F line st0 = some (finish_cycle
      { context := { st0.context with has_device := true }
        pin := { st0.pin with level := true }
        reads := reads2
        trace := st0.trace ++
          [Event.gpio_write false, Event.delay_ms 19, Event.gpio_write true] }
      ⟨b0, b1, b2, b3, b4⟩) := by
    unfold poll_cycle
    simp only [hh, hr]
  rw [finish_cycle_mismatch _ _ hc] at hq
  exact ⟨_, hq, rfl, rfl⟩

/-- Witness of C2: the frame 01 F4 80 32 00 (checksum should be A7) leaves the earlier
reading (21 degrees, 40 percent) in place, and so does a whole poll cycle on
`corrupt_line`, which carries the frame 01 F4 80 32 A6. -/
theorem checksum_failure_keeps_reading_witness :
    (0 ≠ (1 + 244 + 128 + 50) % 256 ∧
      finish_cycle example_state ⟨1, 244, 128, 50, 0⟩ =
        ({ example_state with trace := [Event.log_checksum_failure] }, false)) ∧
    (166 ≠ (1 + 244 + 128 + 50) % 256 ∧
      handshake 65536 corrupt_line example_state.reads = some 4 ∧
      read_frame 65536 corrupt_line 4 = some (⟨1, 244, 128, 50, 166⟩, 124, corrupt_pulses) ∧
      ∃ st1, poll_cycle 65536 corrupt_line example_state = some (st1, false) ∧
        st1.context.temp_celsius = 21 ∧ st1.context.humidity = 40) :=
  ⟨⟨by decide, (checksum_failure_keeps_reading 1 244 128 50 0 (by decide)).1 example_state⟩,
    by decide, by decide, by decide,
    (checksum_failure_keeps_reading 1 244 128 50 166 (by decide)).2 65536 corrupt_line
      example_state 4 124 corrupt_pulses (by decide) (by decide)⟩

theorem finish_cycle_reads (st : ReaderState) (buf : AM2301ScratchPad) :
    (finish_cycle st buf).1.reads = st.reads := by
  unfold finish_cycle
  split <;> rfl

theorem measure_pairs_append (F : Nat) (line : Nat → Bool) :
    ∀ (m n reads reads1 reads2 : Nat) (ps1 ps2 : List (Nat × Nat)),
      measure_pairs F line m reads = some (ps1, reads1) →
      measure_pairs F line n reads1 = some (ps2, reads2) →
      measure_pairs F line (m + n) reads = some (ps1 ++ ps2, reads2) := by
  intro m
  induction m with
  | zero =>
    intro n reads reads1 reads2 ps1 ps2 h1 h2
    simp only [measure_pairs, Option.some.injEq, Prod.mk.injEq] at h1
    obtain ⟨rfl, rfl⟩ := h1
    rw [Nat.zero_add, List.nil_append]
    exact h2
  | succ m ih =>
    intro n reads reads1 reads2 ps1 ps2 h1 h2
    have e : m + 1 + n = (m + n) + 1 := by omega
    rw [e, measure_pairs]
    rw [measure_pairs] at h1
    cases hl : read_signal false line F reads 0 with
    | none => simp [hl] at h1
    | some rl =>
      obtain ⟨lT, r1⟩ := rl
      simp only [hl] at h1 ⊢
      cases hh : read_signal true line F r1 0 with
      | none => simp [hh] at h1
      | some rh =>
        obtain ⟨hT, r2⟩ := rh
        simp only [hh] at h1 ⊢
        cases hm : measure_pairs F line m r2 with
        | none => simp [hm] at h1
        | some rm =>
          obtain ⟨ps, r3⟩ := rm
          simp only [hm, Option.some.injEq, Prod.mk.injEq] at h1
          obtain ⟨rfl, rfl⟩ := h1
          rw [ih n r2 r3 reads2 ps ps2 hm h2]
          rfl

theorem bit_loop_pairs (F : Nat) (line : Nat → Bool) (a : Nat) :
    ∀ (b fuel reads reads1 : Nat) (buf buf1 : AM2301ScratchPad) (pulses : List (Nat × Nat)),
      b ≤ 7 → bit_loop F line a fuel reads b buf = some (buf1, reads1, pulses) →
      measure_pairs F line (b + 1) reads = some (pulses, reads1) := by
  intro b
  induction b with
  | zero =>
    intro fuel reads reads1 buf buf1 pulses _ h
    cases fuel with
    | zero => simp [bit_loop] at h
    | succ f =>
      rw [bit_loop, if_pos (by decide)] at h
      rw [measure_pairs]
      cases hl : read_signal false line F reads 0 with
      | none => simp [hl] at h
      | some rl =>
        obtain ⟨lT, r1⟩ := rl
        simp only [hl] at h ⊢
        cases hh : read_signal true line F r1 0 with
        | none => simp [hh] at h
        | some rh =>
          obtain ⟨hT, r2⟩ := rh
          simp only [hh] at h ⊢
          cases f with
          | zero => simp [bit_loop] at h
          | succ f =>
            rw [bit_loop, if_neg (by decide)] at h
            simp only [Option.some.injEq, Prod.mk.injEq] at h
            obtain ⟨-, rfl, rfl⟩ := h
            rfl
  | succ b ih =>
    intro fuel reads reads1 buf buf1 pulses hb h
    cases fuel with
    | zero => simp [bit_loop] at h
    | succ f =>
      have hne : b + 1 ≠ 255 := by omega
      have hmod : (b + 1 + 255) % 256 = b := by omega
      rw [bit_loop, if_pos hne] at h
      rw [measure_pairs]
      cases hl : read_signal false line F reads 0 with
      | none => simp [hl] at h
      | some rl =>
        obtain ⟨lT, r1⟩ := rl
        simp only [hl] at h ⊢
        cases hh : read_signal true line F r1 0 with
        | none => simp [hh] at h
        | some rh =>
          obtain ⟨hT, r2⟩ := rh
          simp only [hh, hmod] at h ⊢
          cases hi : bit_loop F line a f r2 b
              (if hT > lT then buf.set_byte a ((buf.bytes a ||| (1 <<< (b + 1))) % 256)
                else buf) with
          | none => simp [hi] at h
          | some ri =>
            obtain ⟨buf2, r3, ps⟩ := ri
            simp only [hi, Option.some.injEq, Prod.mk.injEq] at h
            obtain ⟨-, rfl, rfl⟩ := h
            rw [ih f r2 r3 _ buf2 ps (by omega) hi]

theorem byte_loop_pairs (F : Nat) (line : Nat → Bool) :
    ∀ (n fuel reads reads1 a : Nat) (buf buf1 : AM2301ScratchPad)
      (pulses : List (Nat × Nat)),
      a + n = 5 → byte_loop F line fuel reads a buf = some (buf1, reads1, pulses) →
      measure_pairs F line (8 * n) reads = some (pulses, reads1) := by
  intro n
  induction n with
  | zero =>
    intro fuel reads reads1 a buf buf1 pulses ha h
    cases fuel with
    | zero => simp [byte_loop] at h
    | succ f =>
      have h5 : ¬ a < 5 := by omega
      rw [byte_loop, if_neg h5] at h
      simp only [Option.some.injEq, Prod.mk.injEq] at h
      obtain ⟨-, rfl, rfl⟩ := h
      rfl
  | succ n ih =>
    intro fuel reads reads1 a buf buf1 pulses ha h
    cases fuel with
    | zero => simp [byte_loop] at h
    | succ f =>
      have h5 : a < 5 := by omega
      have hmod : (a + 1) % 256 = a + 1 := by omega
      rw [byte_loop, if_pos h5] at h
      cases hb : bit_loop F line a F reads 7 buf with
      | none => simp [hb] at h
      | some rb =>
        obtain ⟨buf2, r1, ps1⟩ := rb
        simp only [hb, hmod] at h
        cases hy : byte_loop F line f r1 (a + 1) buf2 with
        | none => simp [hy] at h
        | some ry =>
          obtain ⟨buf3, r2, ps2⟩ := ry
          simp only [hy, Option.some.injEq, Prod.mk.injEq] at h
          obtain ⟨-, rfl, rfl⟩ := h
          have e : 8 * (n + 1) = 8 + 8 * n := by omega
          rw [e]
          exact measure_pairs_append F line 8 (8 * n) reads r1 r2 ps1 ps2
            (bit_loop_pairs F line a 7 F reads r1 buf buf2 ps1 (le_refl _) hb)
            (ih f r1 r2 (a + 1) buf2 buf3 ps2 (by omega) hy)

/-- C3: starting from the zeroed scratchpad the bit loop takes 40 measurements on the
line, one after the other (`pulses` is exactly what 40 low/high measurements by
`read_signal` give from the first sample of the bit loop, and the loop stops at the
sample where they stop), every duration is at most 65535, and bit `7-j` of scratch byte
`a` is 1 exactly when `hT > lT` for pair number `8a+j` (so it is 0 when both saturate at
65535). Hence the bytes depend only on the comparisons: a second run, on any line, whose
pairs compare alike decodes the same bytes, in particular one where every pair is the pair
of the first run multiplied by a positive factor. -/
theorem bits_follow_pulse_comparison (F : Nat) (line : Nat → Bool) (reads : Nat)
    (hF : 65536 ≤ F) :
    ∃ buf reads1 pulses, read_frame F line reads = some (buf, reads1, pulses) ∧
      measure_pairs F line 40 reads = some (pulses, reads1) ∧
      pulses.length = 40 ∧
      (∀ p, p ∈ pulses → p.1 ≤ 65535 ∧ p.2 ≤ 65535) ∧
      (∀ a j, a < 5 → j < 8 → (buf.bytes a).testBit (7 - j) =
        decide ((pulses.getD (8 * a + j) (0, 0)).2 > (pulses.getD (8 * a + j) (0, 0)).1)) ∧
      (∀ a, a < 5 → buf.bytes a < 256) ∧
      (∀ (line2 : Nat → Bool) (reads2 reads3 : Nat) (buf2 : AM2301ScratchPad)
        (pulses2 : List (Nat × Nat)),
        read_frame F line2 reads2 = some (buf2, reads3, pulses2) →
        (∀ n, n < 40 →
          ((pulses2.getD n (0, 0)).2 > (pulses2.getD n (0, 0)).1 ↔
            (pulses.getD n (0, 0)).2 > (pulses.getD n (0, 0)).1)) →
        buf2 = buf) ∧
      (∀ (line2 : Nat → Bool) (reads2 reads3 : Nat) (buf2 : AM2301ScratchPad)
        (pulses2 : List (Nat × Nat)),
        read_frame F line2 reads2 = some (buf2, reads3, pulses2) →
        (∀ n, n < 40 → ∃ c, 0 < c ∧
          pulses2.getD n (0, 0) =
            (c * (pulses.getD n (0, 0)).1, c * (pulses.getD n (0, 0)).2)) →
        buf2 = buf) := by
  obtain ⟨buf, k, ps, e, hlen, -, hlt, hbits, hps⟩ := read_frame_total F line reads hF
  have hcmp : ∀ (line2 : Nat → Bool) (reads2 reads3 : Nat) (buf2 : AM2301ScratchPad)
      (pulses2 : List (Nat × Nat)),
      read_frame F line2 reads2 = some (buf2, reads3, pulses2) →
      (∀ n, n < 40 →
        ((pulses2.getD n (0, 0)).2 > (pulses2.getD n (0, 0)).1 ↔
          (ps.getD n (0, 0)).2 > (ps.getD n (0, 0)).1)) →
      buf2 = buf := by
    intro line2 reads2 reads3 buf2 pulses2 h2 hsame
    obtain ⟨buf3, k3, ps3, e3, -, -, hlt3, hbits3, -⟩ := read_frame_total F line2 reads2 hF
    rw [h2] at e3
    simp only [Option.some.injEq, Prod.mk.injEq] at e3
    obtain ⟨rfl, -, rfl⟩ := e3
    apply scratchpad_ext
    intro a ha
    apply Nat.eq_of_testBit_eq
    intro i
    by_cases hi : i ≤ 7
    · have e7 : 7 - (7 - i) = i := by omega
      have h1 := hbits a (7 - i) ha (by omega)
      have h3 := hbits3 a (7 - i) ha (by omega)
      rw [e7] at h1 h3
      rw [h1, h3]
      exact decide_eq_decide.mpr (hsame (8 * a + (7 - i)) (by omega))
    · have hp : (256 : Nat) ≤ 2 ^ i := by
        have : (2 : Nat) ^ 8 ≤ 2 ^ i := Nat.pow_le_pow_right (by decide) (by omega)
        simpa using this
      rw [Nat.testBit_lt_two_pow (Nat.lt_of_lt_of_le (hlt a) hp),
        Nat.testBit_lt_two_pow (Nat.lt_of_lt_of_le (hlt3 a) hp)]
  refine ⟨buf, reads + k, ps, e, ?_, hlen, hps, ?_, fun a _ => hlt a, hcmp, ?_⟩
  · exact byte_loop_pairs F line 5 F reads (reads + k) 0 scratchpad_zero buf ps rfl e
  · intro a j ha hj
    exact hbits a j ha (by omega)
  · intro line2 reads2 reads3 buf2 pulses2 h2 hscale
    apply hcmp line2 reads2 reads3 buf2 pulses2 h2
    intro n hn
    obtain ⟨c, hc, hp⟩ := hscale n hn
    rw [hp]
    exact ⟨fun h => Nat.lt_of_mul_lt_mul_left h, fun h => Nat.mul_lt_mul_of_pos_left h hc⟩

/-- Witness of C3 at fuel 65536 on `example_line`, whose bit loop starts at sample 4: the
40 measurements give `example_pulses`, with `hT > lT` in 16 of them, and the frame read
is 01 F4 80 32 A7 (bit 0 of byte 0 and bit 7 of byte 1 are set, bit 7 of byte 0 is not);
`scaled_line`, whose pairs are those of `example_line` times 3, decodes the same frame. -/
theorem bits_follow_pulse_comparison_witness :
    65536 ≤ 65536 ∧
      read_frame 65536 example_line 4 = some (⟨1, 244, 128, 50, 167⟩, 124, example_pulses) ∧
      measure_pairs 65536 example_line 40 4 = some (example_pulses, 124) ∧
      (∀ a j, a < 5 → j < 8 →
        ((⟨1, 244, 128, 50, 167⟩ : AM2301ScratchPad).bytes a).testBit (7 - j) =
          decide ((example_pulses.getD (8 * a + j) (0, 0)).2 >
            (example_pulses.getD (8 * a + j) (0, 0)).1)) ∧
      ((1 : Nat).testBit 0 = true ∧ (244 : Nat).testBit 7 = true ∧
        (1 : Nat).testBit 7 = false) ∧
      read_frame 65536 scaled_line 4 = some (⟨1, 244, 128, 50, 167⟩, 204, scaled_pulses) ∧
      (∀ n, n < 40 → ∃ c, 0 < c ∧
        scaled_pulses.getD n (0, 0) =
          (c * (example_pulses.getD n (0, 0)).1, c * (example_pulses.getD n (0, 0)).2)) := by
  have hr : read_frame 65536 example_line 4 =
      some (⟨1, 244, 128, 50, 167⟩, 124, example_pulses) := by decide
  have hs : read_frame 65536 scaled_line 4 =
      some (⟨1, 244, 128, 50, 167⟩, 204, scaled_pulses) := by decide
  have hscale : ∀ n, n < 40 → ∃ c, 0 < c ∧
      scaled_pulses.getD n (0, 0) =
        (c * (example_pulses.getD n (0, 0)).1, c * (example_pulses.getD n (0, 0)).2) := by
    intro n hn
    refine ⟨3, by decide, ?_⟩
    interval_cases n <;> rfl
  obtain ⟨buf, reads1, pulses, h1, h2, -, -, h3, -, -, -⟩ :=
    bits_follow_pulse_comparison 65536 example_line 4 (Nat.le_refl _)
  rw [hr] at h1
  simp only [Option.some.injEq, Prod.mk.injEq] at h1
  obtain ⟨rfl, rfl, rfl⟩ := h1
  exact ⟨Nat.le_refl _, hr, h2, h3, by decide, hs, hscale⟩

/-- C5: whatever the line does, every polling loop of a poll cycle terminates (fuel 65536
is enough for each): a handshake poll takes at most 500 samples, a pulse measurement
keeps its counter at most 65535 and takes at most 65536 samples, the bit loop runs
exactly 8 times per byte (8 measured pairs), and a whole cycle returns after at most
`4*500 + 80*65536` samples. -/
theorem poll_cycle_terminates (F : Nat) (line : Nat → Bool) (hF : 65536 ≤ F) :
    (∀ (level : Bool) (reads : Nat), ∃ retries k,
        handshake_poll level line F reads 500 = some (retries, reads + k) ∧ k ≤ 500) ∧
      (∀ (level : Bool) (reads : Nat), ∃ T k,
        read_signal level line F reads 0 = some (T, reads + k) ∧ T ≤ 65535 ∧ k ≤ 65536) ∧
      (∀ (a reads : Nat) (buf : AM2301ScratchPad), a < 5 → (∀ a1, buf.bytes a1 < 256) →
        ∃ buf1 reads1 pulses,
          bit_loop F line a F reads 7 buf = some (buf1, reads1, pulses) ∧ pulses.length = 8) ∧
      (∀ reads : Nat, ∃ buf reads1 pulses,
        read_frame F line reads = some (buf, reads1, pulses) ∧ pulses.length = 5 * 8) ∧
      (∀ st : ReaderState, ∃ st1 ok,
        poll_cycle F line st = some (st1, ok) ∧
          st.reads ≤ st1.reads ∧ st1.reads ≤ st.reads + (4 * 500 + 80 * 65536)) := by
  refine ⟨?_, ?_, ?_, ?_, ?_⟩
  · intro level reads
    obtain ⟨r, k, e, hk⟩ :=
      handshake_poll_total level line 499 F reads 500 rfl (by omega) (by omega)
    exact ⟨r, k, e, by omega⟩
  · intro level reads
    obtain ⟨T, k, e, -, hT, hk⟩ := read_signal_total level line 65535 F reads 0 rfl (by omega)
    exact ⟨T, k, e, hT, by omega⟩
  · intro a reads buf ha hbuf
    obtain ⟨buf1, k, ps, e, hlen, -⟩ :=
      bit_loop_total F line a hF ha 7 F reads buf (le_refl _) (by omega) hbuf
    exact ⟨buf1, reads + k, ps, e, hlen⟩
  · intro reads
    obtain ⟨buf, k, ps, e, hlen, -⟩ := read_frame_total F line reads hF
    exact ⟨buf, reads + k, ps, e, hlen⟩
  · intro st
    obtain ⟨buf, k, hk, -, e⟩ := poll_cycle_total F line st hF
    generalize hfc : finish_cycle _ buf = r at e
    have hr : r.1.reads = st.reads + k := by rw [← hfc, finish_cycle_reads]
    exact ⟨r.1, r.2, e, by omega, by omega⟩

/-- Witness of C5 at fuel 65536 on a line stuck high: the cycle returns. -/
theorem poll_cycle_terminates_witness :
    65536 ≤ 65536 ∧
      ∀ st : ReaderState, ∃ st1 ok,
        poll_cycle 65536 (fun _ => true) st = some (st1, ok) ∧
          st.reads ≤ st1.reads ∧ st1.reads ≤ st.reads + (4 * 500 + 80 * 65536) :=
  ⟨Nat.le_refl _, (poll_cycle_terminates 65536 (fun _ => true) (Nat.le_refl _)).2.2.2.2⟩

theorem checksum_mismatch_all_ones : checksum_mismatch ⟨255, 255, 255, 255, 255⟩ = true := by
  decide

theorem checksum_mismatch_zero : checksum_mismatch scratchpad_zero = false := by
  decide

theorem poll_cycle_high_result (F : Nat) (line : Nat → Bool) (st : ReaderState)
    (hF : 65536 ≤ F) (hl : ∀ k, line k = true) :
    poll_cycle F line st = some
      ({ context := { st.context with has_device := true }
         pin := { st.pin with level := true }
         reads := st.reads + 2622480
         trace := st.trace ++
           [Event.gpio_write false, Event.delay_ms 19, Event.gpio_write true] ++
           [Event.log_checksum_failure] }, false) := by
  rw [poll_cycle_high F line st hF hl, finish_cycle_mismatch _ _ checksum_mismatch_all_ones]

theorem poll_cycle_low_result (F : Nat) (line : Nat → Bool) (st : ReaderState)
    (hF : 65536 ≤ F) (hl : ∀ k, line k = false) :
    poll_cycle F line st = some
      ({ context := { st.context with has_device := true, humidity := 0, temp_celsius := 0 }
         pin := { st.pin with level := true }
         reads := st.reads + 2622480
         trace := st.trace ++
           [Event.gpio_write false, Event.delay_ms 19, Event.gpio_write true] ++
           [Event.log_reading 0 0, Event.delay_us 10000] }, true) := by
  rw [poll_cycle_low F line st hF hl, finish_cycle_match _ _ checksum_mismatch_zero,
    store_reading_zero]

theorem reader_loop_held (tf F : Nat) (line : Nat → Bool) (level : Bool) (hF : 65536 ≤ F)
    (hl : ∀ k, line k = level) :
    ∀ (N : Nat) (st : ReaderState),
      ∃ st1, reader_loop tf F line (List.replicate N tf) st = some (st1, false) ∧
        st1.context.has_device = (decide (0 < N) || st.context.has_device) ∧
        (level = true →
          st1.context.temp_celsius = st.context.temp_celsius ∧
            st1.context.humidity = st.context.humidity) := by
  intro N
  induction N with
  | zero =>
    intro st
    exact ⟨st, rfl, by simp, fun _ => ⟨rfl, rfl⟩⟩
  | succ n ih =>
    intro st
    rw [List.replicate_succ, reader_loop]
    simp only [ne_eq, not_true_eq_false, if_false]
    cases level with
    | true =>
      rw [poll_cycle_high_result F line _ hF hl]
      obtain ⟨st1, e, hd, ht⟩ := ih
        { context := { st.context with has_device := true }
          pin := { st.pin with level := true }
          reads := st.reads + 2622480
          trace := st.trace ++ [Event.thread_flags_wait UPDATE_PERIOD_MS tf] ++
            [Event.gpio_write false, Event.delay_ms 19, Event.gpio_write true] ++
            [Event.log_checksum_failure] }
      refine ⟨st1, e, ?_, fun h => ht h⟩
      rw [hd]
      simp
    | false =>
      rw [poll_cycle_low_result F line _ hF hl]
      obtain ⟨st1, e, hd, -⟩ := ih
        { context := { st.context with has_device := true, humidity := 0, temp_celsius := 0 }
          pin := { st.pin with level := true }
          reads := st.reads + 2622480
          trace := st.trace ++ [Event.thread_flags_wait UPDATE_PERIOD_MS tf] ++
            [Event.gpio_write false, Event.delay_ms 19, Event.gpio_write true] ++
            [Event.log_reading 0 0, Event.delay_us 10000] }
      refine ⟨st1, e, ?_, fun h => by cases h⟩
      rw [hd]
      simp

/-- C10: on a line whose every sample is low the poll cycle still stores a reading: the
four handshake polls end (after 1000 samples), all 40 pairs are `(65535, 0)`, the all-zero
frame passes the checksum, `has_device` becomes true and the stored reading is overwritten
with temperature 0 and humidity 0. -/
theorem stuck_low_line_stores_zero_reading (F : Nat) (line : Nat → Bool) (st : ReaderState)
    (hF : 65536 ≤ F) (hl : ∀ k, line k = false) :
    poll_cycle F line st = some
        ({ context := { st.context with has_device := true, humidity := 0, temp_celsius := 0 }
           pin := { st.pin with level := true }
           reads := st.reads + 2622480
           trace := st.trace ++
             [Event.gpio_write false, Event.delay_ms 19, Event.gpio_write true] ++
             [Event.log_reading 0 0, Event.delay_us 10000] }, true) ∧
      handshake F line st.reads = some (st.reads + 1000) ∧
      read_frame F line (st.reads + 1000) =
        some (scratchpad_zero, st.reads + 1000 + 2621480, List.replicate 40 (65535, 0)) ∧
      checksum_mismatch scratchpad_zero = false :=
  ⟨poll_cycle_low_result F line st hF hl, handshake_low F line st.reads hF hl,
    read_frame_low F line (st.reads + 1000) hF hl, checksum_mismatch_zero⟩

/-- Witness of C10: fuel 65536, the constant-low line, an earlier reading of 21 degrees
and 40 percent. -/
theorem stuck_low_line_stores_zero_reading_witness :
    (65536 ≤ 65536 ∧ ∀ k : Nat, (fun _ : Nat => false) k = false) ∧
      poll_cycle 65536 (fun _ => false) example_state = some
        ({ context :=
             { example_state.context with has_device := true, humidity := 0, temp_celsius := 0 }
           pin := { example_state.pin with level := true }
           reads := example_state.reads + 2622480
           trace := example_state.trace ++
             [Event.gpio_write false, Event.delay_ms 19, Event.gpio_write true] ++
             [Event.log_reading 0 0, Event.delay_us 10000] }, true) :=
  ⟨⟨Nat.le_refl _, fun _ => rfl⟩,
    (stuck_low_line_stores_zero_reading 65536 (fun _ => false) example_state (Nat.le_refl _)
      (fun _ => rfl)).1⟩

/-- C7: the context returned by `thermo_context_alloc` has `has_device = false` and holds
no reading: the function assigns only the four handles, so the three fields are those of
the block returned by the firmware's zero-filling `malloc` (`false`, 0, 0), in place
before the function returns, that is before the view port or the reader thread can run;
a draw on the fresh context returns at line 87 with "no data" and loads no reading. -/
theorem fresh_context_has_no_reading (view_port event_queue reader_thread gui : Nat) :
    (thermo_context_alloc view_port event_queue reader_thread gui).has_device = false ∧
      (thermo_context_alloc view_port event_queue reader_thread gui).temp_celsius = 0 ∧
      (thermo_context_alloc view_port event_queue reader_thread gui).humidity = 0 ∧
      (thermo_context_alloc view_port event_queue reader_thread gui).view_port = view_port ∧
      (thermo_context_alloc view_port event_queue reader_thread gui).event_queue =
        event_queue ∧
      (thermo_context_alloc view_port event_queue reader_thread gui).reader_thread =
        reader_thread ∧
      (thermo_context_alloc view_port event_queue reader_thread gui).gui = gui ∧
      thermo_draw_callback (thermo_context_alloc view_port event_queue reader_thread gui) =
        Drawn.no_data :=
  ⟨rfl, rfl, rfl, rfl, rfl, rfl, rfl, rfl⟩

/-- C4 as stated fails: with the line stuck high (pull-up, no sensor) one poll cycle
already sets `has_device`. -/
theorem no_sensor_has_device_counterexample :
    (reader_loop 4294967294 65536 (fun _ => true) [4294967294] example_state).map
        (fun r => (r.1.context.has_device, r.2)) = some (true, false) := by
  obtain ⟨st1, e, hd, -⟩ := reader_loop_held 4294967294 65536 (fun _ => true) true
    (Nat.le_refl _) (fun _ => rfl) 1 example_state
  have e1 : List.replicate 1 4294967294 = [4294967294] := rfl
  rw [e1] at e
  rw [e, Option.map_some', hd]
  rfl

/-- C4 amended: if the line never changes level during `N` poll cycles, the loop is still
running after them and `has_device` is true as soon as one cycle has run (it is false
only when `N = 0` and it was false before); when the line is stuck high, `temp_celsius`
and `humidity` are not written. -/
theorem no_sensor_sets_has_device (tf F : Nat) (line : Nat → Bool) (level : Bool) (N : Nat)
    (st : ReaderState) (hF : 65536 ≤ F) (hl : ∀ k, line k = level)
    (hd : st.context.has_device = false) :
    ∃ st1, reader_loop tf F line (List.replicate N tf) st = some (st1, false) ∧
      st1.context.has_device = decide (0 < N) ∧
      (level = true →
        st1.context.temp_celsius = st.context.temp_celsius ∧
          st1.context.humidity = st.context.humidity) := by
  obtain ⟨st1, e, h1, h2⟩ := reader_loop_held tf F line level hF hl N st
  refine ⟨st1, e, ?_, h2⟩
  rw [h1, hd]
  simp

/-- Witness of C4 amended: three cycles on the line stuck high. -/
theorem no_sensor_sets_has_device_witness :
    (65536 ≤ 65536 ∧ (∀ k : Nat, (fun _ : Nat => true) k = true) ∧
        example_state.context.has_device = false) ∧
      ∃ st1, reader_loop 4294967294 65536 (fun _ => true) (List.replicate 3 4294967294)
          example_state = some (st1, false) ∧
        st1.context.has_device = decide (0 < 3) ∧
        (true = true →
          st1.context.temp_celsius = example_state.context.temp_celsius ∧
            st1.context.humidity = example_state.context.humidity) :=
  ⟨⟨Nat.le_refl _, fun _ => rfl, rfl⟩,
    no_sensor_sets_has_device 4294967294 65536 (fun _ => true) true 3 example_state
      (Nat.le_refl _) (fun _ => rfl) rfl⟩

/-- C6: when a top-of-loop wait returns a value other than the timeout value (after any
number of waits that timed out), the thread runs no further decode cycle (no further line
sample, no further request pulse) and returns with `has_device = false`, `temp_celsius`
and `humidity` as they were before that wait, and the pin driven low and reconfigured as
analog input with no pull; later wait results are never consumed. -/
theorem cancellation_stops_thread (tf F : Nat) (line : Nat → Bool) (pre rest : List Nat)
    (flags : Nat) (st : ReaderState) (hF : 65536 ≤ F) (hpre : ∀ w, w ∈ pre → w = tf)
    (hflags : flags ≠ tf) :
    ∃ st1, reader_loop tf F line pre (reader_setup st) = some (st1, false) ∧
      thermo_reader_thread_callback tf F line (pre ++ flags :: rest) st = some
        ({ context := { st1.context with has_device := false }
           pin :=
             { level := false
               mode := GpioMode.GpioModeAnalog
               pull := GpioPull.GpioPullNo
               speed := GpioSpeed.GpioSpeedLow }
           reads := st1.reads
           trace := st1.trace ++ [Event.thread_flags_wait UPDATE_PERIOD_MS flags] ++
             [Event.gpio_write false,
              Event.gpio_init GpioMode.GpioModeAnalog GpioPull.GpioPullNo
                GpioSpeed.GpioSpeedLow] }, true) := by
  obtain ⟨st1, e⟩ := reader_loop_timeouts tf F line hF pre (reader_setup st) hpre
  refine ⟨st1, e, ?_⟩
  unfold thermo_reader_thread_callback
  rw [reader_loop_append tf F line pre (flags :: rest) _ st1 e, reader_loop]
  simp only [if_pos hflags]
  rfl

/-- Witness of C6: after one timed-out wait on a line stuck high, the exit flag (value 1)
arrives. -/
theorem cancellation_stops_thread_witness :
    (65536 ≤ 65536 ∧ (∀ w, w ∈ [4294967294] → w = 4294967294) ∧ 1 ≠ 4294967294) ∧
      ∃ st1, reader_loop 4294967294 65536 (fun _ => true) [4294967294]
          (reader_setup example_state) = some (st1, false) ∧
        thermo_reader_thread_callback 4294967294 65536 (fun _ => true)
            ([4294967294] ++ 1 :: [7]) example_state = some
          ({ context := { st1.context with has_device := false }
             pin :=
               { level := false
                 mode := GpioMode.GpioModeAnalog
                 pull := GpioPull.GpioPullNo
                 speed := GpioSpeed.GpioSpeedLow }
             reads := st1.reads
             trace := st1.trace ++ [Event.thread_flags_wait UPDATE_PERIOD_MS 1] ++
               [Event.gpio_write false,
                Event.gpio_init GpioMode.GpioModeAnalog GpioPull.GpioPullNo
                  GpioSpeed.GpioSpeedLow] }, true) :=
  ⟨⟨Nat.le_refl _, fun w hw => List.mem_singleton.mp hw, by decide⟩,
    cancellation_stops_thread 4294967294 65536 (fun _ => true) [4294967294] [7] 1 example_state
      (Nat.le_refl _) (fun w hw => List.mem_singleton.mp hw) (by decide)⟩

theorem store_humidity_temp (context : ThermoContext) (buf : AM2301ScratchPad) :
    (store_humidity context buf).temp_celsius = context.temp_celsius := rfl

theorem store_humidity_device (context : ThermoContext) (buf : AM2301ScratchPad) :
    (store_humidity context buf).has_device = context.has_device := rfl

theorem store_humidity_humidity (c1 c2 : ThermoContext) (buf : AM2301ScratchPad) :
    (store_humidity c1 buf).humidity = (store_humidity c2 buf).humidity := rfl

theorem store_temperature_humidity (context : ThermoContext) (buf : AM2301ScratchPad) :
    (store_temperature context buf).humidity = context.humidity := by
  unfold store_temperature
  simp only []
  split <;> rfl

theorem store_temperature_device (context : ThermoContext) (buf : AM2301ScratchPad) :
    (store_temperature context buf).has_device = context.has_device := by
  unfold store_temperature
  simp only []
  split <;> rfl

theorem store_temperature_temp (c1 c2 : ThermoContext) (buf : AM2301ScratchPad) :
    (store_temperature c1 buf).temp_celsius = (store_temperature c2 buf).temp_celsius := by
  unfold store_temperature
  simp only []
  split <;> rfl

theorem store_reading_humidity (c1 c2 : ThermoContext) (buf : AM2301ScratchPad) :
    (store_humidity c1 buf).humidity = (store_reading c2 buf).humidity := by
  unfold store_reading
  rw [store_temperature_humidity]
  rfl

theorem store_reading_temp (c1 c2 : ThermoContext) (buf : AM2301ScratchPad) :
    (store_temperature c1 buf).temp_celsius = (store_reading c2 buf).temp_celsius :=
  store_temperature_temp _ _ _

theorem snapshot_invariant_step (buf : AM2301ScratchPad) (context : ThermoContext)
    (t : Thread) (s : Interleaved) (h : snapshot_invariant buf context s) :
    snapshot_invariant buf context (interleaved_step buf t s) := by
  obtain ⟨hs, hl⟩ := h
  cases t with
  | reader =>
    rcases hs with ⟨hle, ht, hh⟩ | ⟨h2, ht, hh⟩ | ⟨h3, ht, hh⟩
    · have hl1 : s.loads_done ≤ 1 ∨
          (s.loads_done = 2 ∧ s.drawn_temp = context.temp_celsius) ∨
          (s.loads_done = 3 ∧
            (s.seen_device = false ∨
              (s.drawn_temp = context.temp_celsius ∧ s.drawn_humidity = context.humidity) ∨
              (s.drawn_temp = context.temp_celsius ∧
                s.drawn_humidity = (store_reading context buf).humidity) ∨
              (s.drawn_temp = (store_reading context buf).temp_celsius ∧
                s.drawn_humidity = (store_reading context buf).humidity))) := by
        rcases hl with hl | ⟨hl, hd | ⟨h3, _⟩⟩ | hl
        · exact Or.inl hl
        · exact Or.inr (Or.inl ⟨hl, hd⟩)
        · omega
        · exact Or.inr (Or.inr hl)
      have hcase : s.stores_done = 0 ∨ s.stores_done = 1 := by omega
      rcases hcase with h0 | h1
      · refine ⟨Or.inl ⟨?_, ?_, ?_⟩, ?_⟩
        · simp [interleaved_step, h0]
        · simpa [interleaved_step, h0] using ht
        · simpa [interleaved_step, h0] using hh
        · simp only [interleaved_step, h0]
          rcases hl1 with hl | ⟨hl, hd⟩ | hl
          · exact Or.inl hl
          · exact Or.inr (Or.inl ⟨hl, Or.inl hd⟩)
          · exact Or.inr (Or.inr hl)
      · refine ⟨Or.inr (Or.inl ⟨?_, ?_, ?_⟩), ?_⟩
        · simp [interleaved_step, h1]
        · simpa [interleaved_step, h1, store_humidity_temp] using ht
        · simp only [interleaved_step, h1]
          exact store_reading_humidity _ _ _
        · simp only [interleaved_step, h1]
          rcases hl1 with hl | ⟨hl, hd⟩ | hl
          · exact Or.inl hl
          · exact Or.inr (Or.inl ⟨hl, Or.inl hd⟩)
          · exact Or.inr (Or.inr hl)
    · refine ⟨Or.inr (Or.inr ⟨?_, ?_, ?_⟩), ?_⟩
      · simp [interleaved_step, h2]
      · simp only [interleaved_step, h2]
        exact store_reading_temp _ _ _
      · simp only [interleaved_step, h2]
        rw [store_temperature_humidity]
        exact hh
      · simp only [interleaved_step, h2]
        rcases hl with hl | ⟨hl, hd | ⟨h3, _⟩⟩ | hl
        · exact Or.inl hl
        · exact Or.inr (Or.inl ⟨hl, Or.inl hd⟩)
        · omega
        · exact Or.inr (Or.inr hl)
    · have e : interleaved_step buf Thread.reader s = s := by
        simp [interleaved_step, h3]
      rw [e]
      exact ⟨Or.inr (Or.inr ⟨h3, ht, hh⟩), hl⟩
  | gui =>
    have hkeep : ∀ s1 : Interleaved, s1.context = s.context → s1.stores_done = s.stores_done →
        ((s1.stores_done ≤ 1 ∧ s1.context.temp_celsius = context.temp_celsius ∧
            s1.context.humidity = context.humidity) ∨
          (s1.stores_done = 2 ∧ s1.context.temp_celsius = context.temp_celsius ∧
            s1.context.humidity = (store_reading context buf).humidity) ∨
          (s1.stores_done = 3 ∧
            s1.context.temp_celsius = (store_reading context buf).temp_celsius ∧
            s1.context.humidity = (store_reading context buf).humidity)) := by
      intro s1 hc hd
      rw [hc, hd]
      exact hs
    rcases hl with hle | ⟨h2, hd⟩ | ⟨h3, hd⟩
    · have hcase : s.loads_done = 0 ∨ s.loads_done = 1 := by omega
      rcases hcase with h0 | h1
      · by_cases hdev : s.context.has_device = true
        · refine ⟨hkeep _ ?_ ?_, Or.inl ?_⟩ <;> simp [interleaved_step, h0, hdev]
        · refine ⟨hkeep _ ?_ ?_, Or.inr (Or.inr ⟨?_, Or.inl ?_⟩)⟩ <;>
            simp [interleaved_step, h0, hdev]
      · refine ⟨hkeep _ ?_ ?_, Or.inr (Or.inl ⟨?_, ?_⟩)⟩
        · simp [interleaved_step, h1]
        · simp [interleaved_step, h1]
        · simp [interleaved_step, h1]
        · simp only [interleaved_step, h1]
          rcases hs with ⟨_, ht, _⟩ | ⟨_, ht, _⟩ | ⟨h3, ht, _⟩
          · exact Or.inl ht
          · exact Or.inl ht
          · exact Or.inr ⟨h3, ht⟩
    · refine ⟨hkeep _ ?_ ?_, Or.inr (Or.inr ⟨?_, Or.inr ?_⟩)⟩
      · simp [interleaved_step, h2]
      · simp [interleaved_step, h2]
      · simp [interleaved_step, h2]
      · simp only [interleaved_step, h2]
        rcases hs with ⟨_, _, hh⟩ | ⟨_, _, hh⟩ | ⟨h3, _, hh⟩
        · rcases hd with hd | ⟨h3, _⟩
          · exact Or.inl ⟨hd, hh⟩
          · omega
        · rcases hd with hd | ⟨h3, _⟩
          · exact Or.inr (Or.inl ⟨hd, hh⟩)
          · omega
        · rcases hd with hd | ⟨_, hd⟩
          · exact Or.inr (Or.inl ⟨hd, hh⟩)
          · exact Or.inr (Or.inr ⟨hd, hh⟩)
    · have e : interleaved_step buf Thread.gui s = s := by
        simp [interleaved_step, h3]
      rw [e]
      exact ⟨hs, Or.inr (Or.inr ⟨h3, hd⟩)⟩

theorem snapshot_invariant_run (buf : AM2301ScratchPad) (context : ThermoContext) :
    ∀ (schedule : List Thread) (s : Interleaved), snapshot_invariant buf context s →
      snapshot_invariant buf context
        (schedule.foldl (fun s t => interleaved_step buf t s) s) := by
  intro schedule
  induction schedule with
  | nil => intro s h; exact h
  | cons t schedule ih =>
    intro s h
    exact ih _ (snapshot_invariant_step buf context t s h)

theorem settled_invariant_step (buf : AM2301ScratchPad) (context : ThermoContext)
    (t : Thread) (s : Interleaved) (h : settled_invariant context s) :
    settled_invariant context (interleaved_step buf t s) := by
  obtain ⟨h3, hc, hdev, hl⟩ := h
  cases t with
  | reader =>
    have e : interleaved_step buf Thread.reader s = s := by
      simp [interleaved_step, h3]
    rw [e]
    exact ⟨h3, hc, hdev, hl⟩
  | gui =>
    have hdev1 : s.context.has_device = true := by rw [hc]; exact hdev
    rcases hl with hl | ⟨hl, hd⟩ | ⟨hl, hd⟩ | ⟨hl, hd⟩
    · refine ⟨?_, ?_, hdev, Or.inr (Or.inl ⟨?_, ?_⟩)⟩ <;>
        simp [interleaved_step, hl, h3, hc, hdev]
    · refine ⟨?_, ?_, hdev, Or.inr (Or.inr (Or.inl ⟨?_, ?_, ?_⟩))⟩ <;>
        simp [interleaved_step, hl, h3, hc, hd]
    · refine ⟨?_, ?_, hdev, Or.inr (Or.inr (Or.inr ⟨?_, ?_, ?_, ?_⟩))⟩ <;>
        simp [interleaved_step, hl, h3, hc, hd]
    · have e : interleaved_step buf Thread.gui s = s := by
        simp [interleaved_step, hl]
      rw [e]
      exact ⟨h3, hc, hdev, Or.inr (Or.inr (Or.inr ⟨hl, hd⟩))⟩

theorem settled_invariant_run (buf : AM2301ScratchPad) (context : ThermoContext) :
    ∀ (schedule : List Thread) (s : Interleaved), settled_invariant context s →
      settled_invariant context (schedule.foldl (fun s t => interleaved_step buf t s) s) := by
  intro schedule
  induction schedule with
  | nil => intro s h; exact h
  | cons t schedule ih =>
    intro s h
    exact ih _ (settled_invariant_step buf context t s h)

theorem drawn_frozen (buf : AM2301ScratchPad) :
    ∀ (schedule : List Thread) (s : Interleaved), s.loads_done = 3 →
      interleaved_drawn (schedule.foldl (fun s t => interleaved_step buf t s) s) =
        interleaved_drawn s := by
  intro schedule
  induction schedule with
  | nil => intro s _; rfl
  | cons t schedule ih =>
    intro s h
    have hstep : (interleaved_step buf t s).loads_done = 3 ∧
        interleaved_drawn (interleaved_step buf t s) = interleaved_drawn s := by
      cases t with
      | reader =>
        unfold interleaved_step
        simp only []
        split <;> exact ⟨h, rfl⟩
      | gui =>
        have e : interleaved_step buf Thread.gui s = s := by
          simp [interleaved_step, h]
        rw [e]
        exact ⟨h, rfl⟩
    rw [List.foldl_cons, ih _ hstep.1, hstep.2]

/-- C8 as stated fails: with a device already marked present and the reading 21 / 40 on
the screen, the reader thread stores `has_device` and the new humidity, the draw callback
then loads `has_device` (true), the temperature and the humidity, and only then the new
temperature is stored. The draw shows the old temperature 21 with the new humidity 50
(the new reading is -5 and 50). -/
theorem torn_read_counterexample :
    interleaved_drawn (interleaved_run ⟨1, 244, 128, 50, 167⟩ shown_context
        [Thread.reader, Thread.reader, Thread.gui, Thread.gui, Thread.gui, Thread.reader]) =
        some (Drawn.reading 21 50) ∧
      thermo_draw_callback shown_context = Drawn.reading 21 40 ∧
      thermo_draw_callback (store_reading shown_context ⟨1, 244, 128, 50, 167⟩) =
        Drawn.reading (-5) 50 ∧
      checksum_mismatch ⟨1, 244, 128, 50, 167⟩ = false := by
  decide

/-- C8 amended: the code takes no lock. With loads and stores taking effect in program
order, under every interleaving of one successful cycle with one draw the draw shows
"no data" or the old pair, the new pair, or the old temperature with the new humidity,
never the new temperature with the old humidity; a draw that runs wholly before the
cycle's stores shows what an uninterrupted draw of the old context shows, and a draw
that runs wholly after them shows the new pair. -/
theorem draw_snapshot_cases (buf : AM2301ScratchPad) (context : ThermoContext)
    (schedule : List Thread) :
    (∀ t h, interleaved_drawn (interleaved_run buf context schedule) =
          some (Drawn.reading t h) →
        (t = context.temp_celsius ∧ h = context.humidity) ∨
          (t = context.temp_celsius ∧ h = (store_reading context buf).humidity) ∨
          (t = (store_reading context buf).temp_celsius ∧
            h = (store_reading context buf).humidity)) ∧
      interleaved_drawn (interleaved_run buf context
          (Thread.gui :: Thread.gui :: Thread.gui :: schedule)) =
        some (thermo_draw_callback context) ∧
      (∀ d, interleaved_drawn (interleaved_run buf context
            (Thread.reader :: Thread.reader :: Thread.reader :: schedule)) = some d →
        d = Drawn.reading (store_reading context buf).temp_celsius
          (store_reading context buf).humidity) := by
  refine ⟨?_, ?_, ?_⟩
  · intro t h hd
    have hinv := snapshot_invariant_run buf context schedule
      { context := context, stores_done := 0, loads_done := 0, seen_device := false,
        drawn_temp := 0, drawn_humidity := 0 }
      ⟨Or.inl ⟨Nat.zero_le _, rfl, rfl⟩, Or.inl (Nat.zero_le _)⟩
    obtain ⟨-, hl⟩ := hinv
    unfold interleaved_run at hd
    unfold interleaved_drawn at hd
    split at hd
    · rename_i h3
      simp only [Option.some.injEq] at hd
      split at hd
      · rename_i hseen
        simp only [Drawn.reading.injEq] at hd
        obtain ⟨rfl, rfl⟩ := hd
        rcases hl with hl | ⟨hl, -⟩ | ⟨-, hcases⟩
        · omega
        · omega
        · rcases hcases with hf | hcases
          · rw [hf] at hseen
            exact absurd hseen (by decide)
          · exact hcases
      · cases hd
    · cases hd
  · have e : interleaved_run buf context
        (Thread.gui :: Thread.gui :: Thread.gui :: schedule) =
        schedule.foldl (fun s t => interleaved_step buf t s)
          (interleaved_step buf Thread.gui (interleaved_step buf Thread.gui
            (interleaved_step buf Thread.gui
              { context := context, stores_done := 0, loads_done := 0, seen_device := false,
                drawn_temp := 0, drawn_humidity := 0 }))) := rfl
    rw [e]
    cases hdev : context.has_device with
    | false =>
      rw [drawn_frozen buf schedule _ (by simp [interleaved_step, hdev])]
      simp [interleaved_step, interleaved_drawn, thermo_draw_callback, hdev]
    | true =>
      rw [drawn_frozen buf schedule _ (by simp [interleaved_step, hdev])]
      simp [interleaved_step, interleaved_drawn, thermo_draw_callback, hdev]
  · intro d hd
    have hinv := settled_invariant_run buf
      (store_temperature (store_humidity { context with has_device := true } buf) buf) schedule
      { context :=
          store_temperature (store_humidity { context with has_device := true } buf) buf
        stores_done := 3, loads_done := 0, seen_device := false,
        drawn_temp := 0, drawn_humidity := 0 }
      ⟨rfl, rfl, by rw [store_temperature_device, store_humidity_device], Or.inl rfl⟩
    obtain ⟨-, -, -, hl⟩ := hinv
    have e : interleaved_run buf context
        (Thread.reader :: Thread.reader :: Thread.reader :: schedule) =
        schedule.foldl (fun s t => interleaved_step buf t s)
          { context :=
              store_temperature (store_humidity { context with has_device := true } buf) buf
            stores_done := 3, loads_done := 0, seen_device := false,
            drawn_temp := 0, drawn_humidity := 0 } := rfl
    rw [e] at hd
    have ht : (store_temperature (store_humidity { context with has_device := true } buf)
        buf).temp_celsius = (store_reading context buf).temp_celsius :=
      store_reading_temp _ _ _
    have hh : (store_temperature (store_humidity { context with has_device := true } buf)
        buf).humidity = (store_reading context buf).humidity := by
      rw [store_temperature_humidity]
      exact store_reading_humidity _ _ _
    unfold interleaved_drawn at hd
    rcases hl with hl | ⟨hl, -⟩ | ⟨hl, -⟩ | ⟨hl, hseen, hdt, hdh⟩
    · rw [if_neg (by omega)] at hd
      cases hd
    · rw [if_neg (by omega)] at hd
      cases hd
    · rw [if_neg (by omega)] at hd
      cases hd
    · rw [if_pos hl, hseen, hdt, hdh, ht, hh] at hd
      simp only [if_true, Option.some.injEq] at hd
      exact hd.symm

/-- Witness of C8 amended, on the context that shows 21 / 40 and the frame 01 F4 80 32 A7:
the interleaved draw of the counterexample falls under the second case, a draw before the
stores shows 21 / 40 and a draw after them shows -5 / 50. -/
theorem draw_snapshot_cases_witness :
    (interleaved_drawn (interleaved_run ⟨1, 244, 128, 50, 167⟩ shown_context
          [Thread.reader, Thread.reader, Thread.gui, Thread.gui, Thread.gui, Thread.reader]) =
          some (Drawn.reading 21 50) ∧
        ((21 = shown_context.temp_celsius ∧ 50 = shown_context.humidity) ∨
          (21 = shown_context.temp_celsius ∧
            50 = (store_reading shown_context ⟨1, 244, 128, 50, 167⟩).humidity) ∨
          (21 = (store_reading shown_context ⟨1, 244, 128, 50, 167⟩).temp_celsius ∧
            50 = (store_reading shown_context ⟨1, 244, 128, 50, 167⟩).humidity))) ∧
      interleaved_drawn (interleaved_run ⟨1, 244, 128, 50, 167⟩ shown_context
          (Thread.gui :: Thread.gui :: Thread.gui :: [Thread.reader, Thread.reader])) =
        some (Drawn.reading 21 40) ∧
      (interleaved_drawn (interleaved_run ⟨1, 244, 128, 50, 167⟩ shown_context
            (Thread.reader :: Thread.reader :: Thread.reader ::
              [Thread.gui, Thread.gui, Thread.gui])) = some (Drawn.reading (-5) 50) ∧
        Drawn.reading (-5) 50 =
          Drawn.reading (store_reading shown_context ⟨1, 244, 128, 50, 167⟩).temp_celsius
            (store_reading shown_context ⟨1, 244, 128, 50, 167⟩).humidity) :=
  ⟨⟨by decide,
      (draw_snapshot_cases ⟨1, 244, 128, 50, 167⟩ shown_context
        [Thread.reader, Thread.reader, Thread.gui, Thread.gui, Thread.gui, Thread.reader]).1
        21 50 (by decide)⟩,
    (draw_snapshot_cases ⟨1, 244, 128, 50, 167⟩ shown_context
      [Thread.reader, Thread.reader]).2.1.trans (by decide),
    by decide,
    (draw_snapshot_cases ⟨1, 244, 128, 50, 167⟩ shown_context
      [Thread.gui, Thread.gui, Thread.gui]).2.2 (Drawn.reading (-5) 50) (by decide)⟩

end Thermo
